import Mathlib

/-!
Verification development for the terminal wizard in `src/app.rs` / `src/main.rs`.

The Rust program is shallowly embedded: pure data (the `App` struct, the state
enums) becomes Lean structures and inductives with the source field names;
every interaction with the outside world (filesystem, child processes, the
parent-process environment) is mediated by an oracle `World` that fixes the
outcome of each external call, and each operation additionally returns the
list of externally visible effects (`Eff`) it performed, in order.  Machine
integers (`u16` for the scroll offset, `usize` for menu cursors) are modelled
as `Nat` with the saturating operations written out explicitly.

Two deliberate, documented deviations from literal source text:
- apostrophes are elided from message string literals (for example the source
  writes the project name between quote-apostrophes inside status messages);
  no claim depends on apostrophes inside messages;
- `std::io::Error` texts produced by failing external calls are modelled by
  short fixed strings such as "spawn failed", since the source only ever
  formats them into "Error: ..." lines.
-/

/-- Key codes, restricted to the codes the source program inspects; every
other crossterm code behaves like `other` (it only ever reaches wildcard
match arms). -/
inductive KeyCode where
  | Enter
  | Esc
  | Up
  | Down
  | Backspace
  | Char (c : Char)
  | PageUp
  | PageDown
  | other
  deriving DecidableEq, Repr

/-- Key event kind: the source ignores everything but `Press` at the top of
`handle_key_event` (but not in `handle_error`, which looks at the code only). -/
inductive KeyEventKind where
  | Press
  | Release
  deriving DecidableEq, Repr

structure KeyEvent where
  code : KeyCode
  kind : KeyEventKind
  deriving DecidableEq, Repr

/-- `InstallStep` from src/app.rs. -/
inductive InstallStep where
  | CloningRepo
  | SettingUpSparse
  | MovingFiles
  | UpdatingDependencies
  | SettingUpForge
  deriving DecidableEq, Repr

/-- `E2ETestStep` from src/app.rs. -/
inductive E2ETestStep where
  | PreparingEnvironment
  | StartingAnvil
  | RunningTest
  | Cleanup
  deriving DecidableEq, Repr

/-- `AppState` from src/app.rs. -/
inductive AppState where
  | CheckingDependencies
  | EnteringProjectName
  | ConfirmOverwrite
  | Installing (s : InstallStep)
  | Success
  | TestMenu
  | EnteringBonsaiKey
  | Testing (s : E2ETestStep)
  | Finished
  deriving DecidableEq, Repr

/-- `TestEnvironment` from src/app.rs; the child-process handle is modelled
by an abstract numeric id. -/
structure TestEnvironment where
  eth_rpc_url : String
  eth_wallet_address : String
  eth_wallet_private_key : String
  bonsai_api_key : String
  bonsai_api_url : String
  anvil_process : Option Nat
  deriving DecidableEq, Repr

/-- The `App` struct from src/app.rs.  `output_scroll` is a `u16` in the
source; it is kept as a `Nat` and every operation on it saturates at
`65535` exactly where the source uses `saturating_add`. -/
structure App where
  state : AppState
  project_name : String
  status_message : String
  rust_installed : Bool
  foundry_installed : Bool
  risc0_version : Option String
  command_output : List String
  output_scroll : Nat
  pending_redraw : Bool
  selected_menu_item : Nat
  confirm_menu_item : Nat
  test_env : Option TestEnvironment
  bonsai_api_key : String
  deriving DecidableEq, Repr

/-- Externally visible effects, in program order. -/
inductive Eff where
  | runCmd (cmd : String) (args : List String)
  | removeDirAll (p : String)
  | removeDir (p : String)
  | removeFile (p : String)
  | rename (src dst : String)
  | createDir (p : String)
  | writeFile (p : String) (content : String)
  | chdir (p : String)
  | pkill (name : String)
  | spawnProc (name : String)
  | killChild (h : Nat)
  | sleepMs (n : Nat)
  | curlCheck (url : String)
  deriving DecidableEq, Repr

/-- One entry returned by `fs::read_dir`. -/
structure DirEntry where
  name : String
  isFile : Bool
  deriving DecidableEq, Repr

/-- Oracle fixing the outcome of every external call the program makes.  A
static oracle is the usual environment model: each query is answered the same
way whenever it is asked during the run under consideration. -/
structure World where
  dirExists : String → Bool
  removeDirOk : String → Bool
  removeEmptyDirOk : String → Bool
  removeFileOk : String → Bool
  renameOk : String → String → Bool
  createDirOk : String → Bool
  chdirOk : String → Bool
  readDirOk : String → Bool
  readDir : String → List DirEntry
  readFileOk : String → Bool
  readFile : String → String
  writeOk : String → Bool
  spawnOkCmd : String → List String → Bool
  cmdOk : String → List String → Bool
  cmdLines : String → List String → List String
  risc0Output : Option String
  anvilSpawnOk : Bool
  anvilHandle : Nat
  curlOk : Bool
  fsDepth : Nat

/-- The parent process environment (`std::env`). -/
def PEnv : Type := String → Option String

/-- `std::env::set_var` acting on the parent-process environment. -/
def envSet (e : PEnv) (k v : String) : PEnv :=
  fun q => if q = k then some v else e q

/-- Result of a fallible operation on the app: Rust methods mutate `self`
before failing, so the (possibly partially mutated) app is returned on the
error path as well, exactly as `?` leaves `self` in the source. -/
structure ActOut where
  err : Option String
  app : App
  effs : List Eff
  deriving Repr

/-- `App::add_output`. -/
def add_output (a : App) (line : String) : App :=
  { a with command_output := a.command_output ++ [line], pending_redraw := true }

/-- `App::run_command`: sets the status message, spawns the child with piped
output, streams every produced line into the output log, waits, and fails on
a non-zero exit status with the message "Command failed". -/
def run_command (w : World) (a : App) (cmd : String) (args : List String)
    (description : String) : ActOut :=
  let a1 : App := { a with status_message := description }
  if w.spawnOkCmd cmd args then
    let a2 : App := (w.cmdLines cmd args).foldl add_output a1
    if w.cmdOk cmd args then
      { err := none, app := a2, effs := [Eff.runCmd cmd args] }
    else
      { err := some "Command failed", app := a2, effs := [Eff.runCmd cmd args] }
  else
    { err := some "spawn failed", app := a1, effs := [Eff.runCmd cmd args] }

/-- `App::cleanup_test`: kill the held anvil child handle if one is present
(taking it out of the option), then always also issue the broad name-based
`pkill anvil`.  Every result is discarded in the source (`let _ = ...`), so
the operation is total and returns no error. -/
def cleanup_test (a : App) : App × List Eff :=
  let inner : App × List Eff :=
    match a.test_env with
    | some te =>
        match te.anvil_process with
        | some h =>
            ({ a with test_env := some { te with anvil_process := none } },
             [Eff.killChild h])
        | none => (a, [])
    | none => (a, [])
  (inner.1, inner.2 ++ [Eff.pkill "anvil"])

/-- The state-dependent part of `App::handle_key_event`, before the shared
scroll handling.  Returns `(quit, app)`; `quit = true` corresponds to the
early `return Ok(true)` paths, which skip the scroll handling. -/
def keyStateBranch (w : World) (k : KeyEvent) (a : App) : Bool × App :=
  match a.state with
  | AppState.ConfirmOverwrite =>
      match k.code with
      | KeyCode.Enter =>
          if a.confirm_menu_item = 0 then
            (false, { a with state := AppState.TestMenu,
                             status_message := "Select test to run:",
                             command_output := [] })
          else if a.confirm_menu_item = 1 then
            (false, { a with state := AppState.Installing InstallStep.CloningRepo,
                             status_message :=
                               "Installing project " ++ a.project_name ++ "..." })
          else if a.confirm_menu_item = 2 then
            (true, a)
          else
            (false, a)
      | KeyCode.Up =>
          (false, { a with confirm_menu_item := a.confirm_menu_item - 1 })
      | KeyCode.Down =>
          (false, { a with confirm_menu_item := min (a.confirm_menu_item + 1) 2 })
      | KeyCode.Esc => (true, a)
      | _ => (false, a)
  | AppState.Success =>
      match k.code with
      | KeyCode.Enter =>
          (false, { a with state := AppState.TestMenu,
                           status_message := "Select test to run:",
                           command_output := [] })
      | KeyCode.Esc => (true, a)
      | _ => (false, a)
  | AppState.EnteringProjectName =>
      match k.code with
      | KeyCode.Enter =>
          if a.project_name ≠ "" then
            if w.dirExists a.project_name then
              (false, { a with state := AppState.ConfirmOverwrite,
                               status_message := "Directory exists. Overwrite?" })
            else
              (false, { a with state := AppState.Installing InstallStep.CloningRepo,
                               status_message :=
                                 "Installing project " ++ a.project_name ++ "..." })
          else
            (false, a)
      | KeyCode.Char c =>
          (false, { a with project_name := a.project_name.push c })
      | KeyCode.Backspace =>
          (false, { a with project_name := (a.project_name.dropRight 1) })
      | KeyCode.Esc => (true, a)
      | _ => (false, a)
  | AppState.TestMenu =>
      match k.code with
      | KeyCode.Enter =>
          if a.selected_menu_item = 0 then
            (false, { a with state := AppState.EnteringBonsaiKey,
                             status_message := "Please enter your Bonsai API key",
                             bonsai_api_key := "" })
          else if a.selected_menu_item = 1 then
            (true, a)
          else
            (false, a)
      | KeyCode.Up =>
          (false, { a with selected_menu_item := a.selected_menu_item - 1 })
      | KeyCode.Down =>
          (false, { a with selected_menu_item := min (a.selected_menu_item + 1) 1 })
      | KeyCode.Esc => (true, a)
      | _ => (false, a)
  | AppState.EnteringBonsaiKey =>
      match k.code with
      | KeyCode.Enter =>
          if a.bonsai_api_key ≠ "" then
            (false, { a with state := AppState.Testing E2ETestStep.PreparingEnvironment,
                             status_message := "Starting end-to-end test...",
                             test_env := some
                               { eth_rpc_url := "http://localhost:8545",
                                 eth_wallet_address :=
                                   "0xf39Fd6e51aad88F6F4ce6aB8827279cffFb92266",
                                 eth_wallet_private_key :=
                                   "0xac0974bec39a17e36ba4a6b4d238ff944bacb478cbed5efcae784d7bf4f2ff80",
                                 bonsai_api_key := a.bonsai_api_key,
                                 bonsai_api_url := "https://api.bonsai.xyz",
                                 anvil_process := none } })
          else
            (false, a)
      | KeyCode.Char c =>
          (false, { a with bonsai_api_key := a.bonsai_api_key.push c })
      | KeyCode.Backspace =>
          (false, { a with bonsai_api_key := (a.bonsai_api_key.dropRight 1) })
      | KeyCode.Esc =>
          (false, { a with state := AppState.TestMenu,
                           status_message := "Test cancelled" })
      | _ => (false, a)
  | _ => (false, a)

/-- The shared scroll handling at the end of `App::handle_key_event`:
`PageUp` saturating-decrements the offset (guarded by `> 0`), `PageDown`
saturating-increments it (a `u16` saturates at 65535) whenever the output
log is non-empty. -/
def scrollHandle (k : KeyEvent) (a : App) : App :=
  match k.code with
  | KeyCode.PageUp =>
      if 0 < a.output_scroll then { a with output_scroll := a.output_scroll - 1 }
      else a
  | KeyCode.PageDown =>
      if a.command_output.isEmpty then a
      else { a with output_scroll := min (a.output_scroll + 1) 65535 }
  | _ => a

/-- `App::handle_key_event`.  Returns `(quit, app)` where `quit = true`
corresponds to `Ok(true)`, the signal that makes `App::run` return. -/
def handle_key_event (w : World) (k : KeyEvent) (a : App) : Bool × App :=
  if k.kind ≠ KeyEventKind.Press then (false, a)
  else
    let r := keyStateBranch w k a
    if r.1 then (true, r.2)
    else (false, scrollHandle k r.2)

/-- Substring search core: does the pattern `p :: ps` occur in the list?
(Structurally recursive so that concrete instances reduce in the kernel.) -/
def containsCore (p : Char) (ps : List Char) : List Char → Bool
  | [] => false
  | c :: cs => (p :: ps).isPrefixOf (c :: cs) || containsCore p ps cs

/-- Rust `str::contains`: the empty pattern is always contained. -/
def hasSubstr (s pat : String) : Bool :=
  match pat.toList with
  | [] => true
  | p :: ps => containsCore p ps s.toList

/-- Replacement core of Rust `str::replace`: scan left to right, replacing
each non-overlapping occurrence of `p :: ps` by `rep`.  The extra fuel
argument (always instantiated above the input length) makes the recursion
structural so that concrete instances reduce in the kernel. -/
def replCoreF (p : Char) (ps rep : List Char) : Nat → List Char → List Char
  | 0, s => s
  | _ + 1, [] => []
  | fuel + 1, c :: cs =>
      if (p :: ps).isPrefixOf (c :: cs) then
        rep ++ replCoreF p ps rep fuel (cs.drop ps.length)
      else
        c :: replCoreF p ps rep fuel cs

/-- Rust `str::replace` (all non-overlapping occurrences, left to right); on
the empty pattern the source never calls it, and this model returns the
input unchanged. -/
def strReplace (s pat rep : String) : String :=
  match pat.toList with
  | [] => s
  | p :: ps => String.mk (replCoreF p ps rep.toList (s.toList.length + 1) s.toList)

/-- Split a character list at every newline (the shape of `splitOn "\n"`). -/
def splitNl : List Char → List (List Char)
  | [] => [[]]
  | c :: cs =>
      match splitNl cs with
      | h :: t => if c = '\n' then [] :: h :: t else (c :: h) :: t
      | [] => if c = '\n' then [[], []] else [[c]]

/-- Join lines back with newlines. -/
def joinNl : List (List Char) → List Char
  | [] => []
  | [l] => l
  | l :: ls => l ++ '\n' :: joinNl ls

/-- Whitespace class of the regex `\s` as used by the manifest rewriting
patterns (the inputs are single lines, so the newline member is inert). -/
def isWsChar (c : Char) : Bool :=
  c = ' ' ∨ c = '\t' ∨ c = '\r' ∨ c = '\n'

/-- Match a literal string at the head of a character list, returning the
remainder on success. -/
def dropLit : List Char → List Char → Option (List Char)
  | [], cs => some cs
  | _ :: _, [] => none
  | l :: ls, c :: cs => if c = l then dropLit ls cs else none

/-- Matcher for the line-anchored patterns of the non-workspace branch,
`^DEP\s*=.*$`: the line must start with the dependency name immediately at
column zero, followed by optional whitespace and `=`; the match then spans
the whole line. -/
def lineMatchesDep (dep : String) (line : String) : Bool :=
  match dropLit dep.toList line.toList with
  | some rest =>
      match rest.dropWhile isWsChar with
      | '=' :: _ => true
      | _ => false
  | none => false

/-- Apply one non-workspace rewrite pass: every line matching `^DEP\s*=.*$`
is replaced in full by the replacement text (the pattern consumes the whole
line). -/
def replaceDepLine (dep repl : String) (line : String) : String :=
  if lineMatchesDep dep line then repl else line

/-- The greedy tail `".*"\s*\}` of the workspace fallback pattern: find the
last `"` in the remaining characters that is followed by optional whitespace
and a closing brace, and return what follows that brace.  Preferring the
recursive (later) match realises the greedy semantics of `.*`. -/
def closeQuote : List Char → Option (List Char)
  | [] => none
  | c :: rest =>
      match closeQuote rest with
      | some r => some r
      | none =>
          if c = '"' then
            match rest.dropWhile isWsChar with
            | '}' :: r2 => some r2
            | _ => none
          else none

/-- Matcher for the workspace fallback patterns
`^\s*DEP\s*=\s*\{\s*path\s*=\s*".*"\s*\}` applied to a single line (the
concrete manifests carry these declarations on one line); on success the
characters after the matched span are returned so the replacement can keep
any trailing text, as `replace_all` does. -/
def matchWsPath (dep : String) (line : List Char) : Option (List Char) :=
  let s0 := line.dropWhile isWsChar
  match dropLit dep.toList s0 with
  | none => none
  | some s1 =>
      match (s1.dropWhile isWsChar) with
      | '=' :: s2 =>
          match (s2.dropWhile isWsChar) with
          | '{' :: s3 =>
              match dropLit "path".toList (s3.dropWhile isWsChar) with
              | none => none
              | some s4 =>
                  match (s4.dropWhile isWsChar) with
                  | '=' :: s5 =>
                      match (s5.dropWhile isWsChar) with
                      | '"' :: s6 => closeQuote s6
                      | _ => none
                  | _ => none
          | _ => none
      | _ => none

/-- Apply one workspace-fallback rewrite pass to a line. -/
def replaceWsDepLine (dep repl : String) (line : String) : String :=
  match matchWsPath dep line.toList with
  | some rest => repl ++ String.mk rest
  | none => line

/-- Apply a line transformation across a whole file, preserving the line
structure; this is the shape of a `(?m)`-anchored `replace_all`. -/
def mapLines (f : String → String) (s : String) : String :=
  String.mk (joinNl ((splitNl s.toList).map (fun l => (f (String.mk l)).toList)))

/-- Replacement text of the `risc0-build-ethereum` rewrite (all branches). -/
def buildRepl : String :=
  "risc0-build-ethereum = \x7b git = \"https://github.com/risc0/risc0-ethereum\", branch = \"release-1.3\" \x7d"

/-- Replacement text of the `risc0-ethereum-contracts` rewrite (all branches). -/
def contractsRepl : String :=
  "risc0-ethereum-contracts = \x7b git = \"https://github.com/risc0/risc0-ethereum\", branch = \"release-1.3\" \x7d"

/-- Unflagged replacement text of the `risc0-steel` rewrite. -/
def steelRepl : String :=
  "risc0-steel = \x7b git = \"https://github.com/risc0/risc0-ethereum\", branch = \"release-1.3\" \x7d"

/-- Apps-context replacement text of the `risc0-steel` rewrite, carrying the
extra `features = ["host"]` flag. -/
def steelReplHost : String :=
  "risc0-steel = \x7b git = \"https://github.com/risc0/risc0-ethereum\", branch = \"release-1.3\", features = [\"host\"] \x7d"

/-- Exact needle of the direct workspace replacement for `risc0-build-ethereum`. -/
def wsBuildNeedle : String :=
  "risc0-build-ethereum = \x7b path = \"../../build\" \x7d"

/-- Exact needle of the direct workspace replacement for `risc0-ethereum-contracts`. -/
def wsContractsNeedle : String :=
  "risc0-ethereum-contracts = \x7b path = \"../../contracts\" \x7d"

/-- Exact needle of the direct workspace replacement for `risc0-steel`. -/
def wsSteelNeedle : String :=
  "risc0-steel = \x7b path = \"../../crates/steel\" \x7d"

/-- The per-file body of `App::update_dependencies`: decide the manifest
context from the file path and contents, then rewrite the three risc0
dependency declarations.  Workspace manifests (with or without a
`[workspace.dependencies]` table) always receive the unflagged rewrites; in
the remaining branch the `risc0-steel` rewrite gains the `features =
["host"]` flag exactly when the path contains "/apps/". -/
def rewriteManifest (file_path content : String) : String :=
  let is_apps := hasSubstr file_path "/apps/"
  let is_workspace := hasSubstr content "[workspace]"
  if is_workspace ∧ hasSubstr content "[workspace.dependencies]" then
    strReplace
      (strReplace (strReplace content wsBuildNeedle buildRepl)
        wsContractsNeedle contractsRepl)
      wsSteelNeedle steelRepl
  else if is_workspace then
    mapLines (replaceWsDepLine "risc0-steel" steelRepl)
      (mapLines (replaceWsDepLine "risc0-ethereum-contracts" contractsRepl)
        (mapLines (replaceWsDepLine "risc0-build-ethereum" buildRepl) content))
  else
    let steel := if is_apps then steelReplHost else steelRepl
    mapLines (replaceDepLine "risc0-steel" steel)
      (mapLines (replaceDepLine "risc0-ethereum-contracts" contractsRepl)
        (mapLines (replaceDepLine "risc0-build-ethereum" buildRepl) content))

/-- `App::check_dependency`: runs the probe command; any `Ok` output counts
as success (the exit status is not inspected), `Err` (spawn failure) as
absence. -/
def check_dependency (w : World) (a : App) (cmd : String) (args : List String)
    (success_msg error_msg : String) : Bool × App × List Eff :=
  if w.spawnOkCmd cmd args then
    (true, { a with status_message := "✓ " ++ success_msg }, [Eff.runCmd cmd args])
  else
    (false, { a with status_message := "✗ " ++ error_msg }, [Eff.runCmd cmd args])

/-- `App::check_rust`. -/
def check_rust (w : World) (a : App) : Bool × App × List Eff :=
  check_dependency w a "rustc" ["--version"]
    "Rust is installed"
    "Rust not found. Visit: https://www.rust-lang.org/tools/install"

/-- `App::check_foundry`. -/
def check_foundry (w : World) (a : App) : Bool × App × List Eff :=
  check_dependency w a "forge" ["--version"]
    "Foundry is installed"
    "Foundry not found. Visit: https://book.getfoundry.sh/getting-started/installation"

/-- `App::check_risc0`: accepts any probe output containing "1.2.",
recording the trimmed version string. -/
def check_risc0 (w : World) (a : App) : Bool × App × List Eff :=
  match w.risc0Output with
  | some out =>
      if hasSubstr out "1.2." then
        (true, { a with risc0_version := some out.trim,
                        status_message := "✓ RISC0 1.2.x detected" },
         [Eff.runCmd "cargo" ["risczero", "--version"]])
      else
        (false, { a with status_message :=
            "✗ Unsupported RISC0 version. Version 1.2 is required" },
         [Eff.runCmd "cargo" ["risczero", "--version"]])
  | none =>
      (false, { a with status_message :=
          "✗ RISC0 not found. Visit: https://dev.risczero.com/api/zkvm/install" },
       [Eff.runCmd "cargo" ["risczero", "--version"]])

/-- Argument list of the template clone command. -/
def cloneArgs (name : String) : List String :=
  ["clone", "-b", "release-1.3", "https://github.com/risc0/risc0-ethereum.git",
   name, "--single-branch", "--depth", "1"]

/-- `App::clone_repository`: if the target directory already exists it is
removed first (logging a line), then the template repository is cloned into
it. -/
def clone_repository (w : World) (a : App) : ActOut :=
  if w.dirExists a.project_name then
    let a1 := add_output a ("Removing existing directory " ++ a.project_name ++ "...")
    if w.removeDirOk a.project_name then
      let r := run_command w a1 "git" (cloneArgs a.project_name)
        ("Cloning repository into " ++ a.project_name ++ "...")
      { r with effs := Eff.removeDirAll a.project_name :: r.effs }
    else
      { err := some "remove_dir_all failed", app := a1,
        effs := [Eff.removeDirAll a.project_name] }
  else
    run_command w a "git" (cloneArgs a.project_name)
      ("Cloning repository into " ++ a.project_name ++ "...")

/-- `App::setup_sparse_checkout`: enter the project directory, configure the
sparse checkout, check the files out, and verify the example subtree
appeared. -/
def setup_sparse_checkout (w : World) (a : App) : ActOut :=
  if w.chdirOk a.project_name then
    let r1 := run_command w a "git" ["sparse-checkout", "set", "examples/erc20-counter"]
      "Setting up sparse checkout..."
    match r1.err with
    | some e => { err := some e, app := r1.app, effs := Eff.chdir a.project_name :: r1.effs }
    | none =>
        let r2 := run_command w r1.app "git" ["checkout"] "Checking out files..."
        match r2.err with
        | some e =>
            { err := some e, app := r2.app,
              effs := Eff.chdir a.project_name :: r1.effs ++ r2.effs }
        | none =>
            if w.dirExists "examples/erc20-counter" then
              { err := none, app := r2.app,
                effs := Eff.chdir a.project_name :: r1.effs ++ r2.effs }
            else
              { err := some "examples/erc20-counter directory not found after checkout",
                app := r2.app,
                effs := Eff.chdir a.project_name :: r1.effs ++ r2.effs }
  else
    { err := some "set_current_dir failed", app := a, effs := [Eff.chdir a.project_name] }

/-- The first `move_files` loop: delete every plain file listed in the root
directory, aborting at the first failure as `?` does. -/
def removeRootFiles (w : World) : List DirEntry → Option String × List Eff
  | [] => (none, [])
  | e :: rest =>
      if e.isFile then
        if w.removeFileOk ("./" ++ e.name) then
          let r := removeRootFiles w rest
          (r.1, Eff.removeFile ("./" ++ e.name) :: r.2)
        else
          (some "remove_file failed", [Eff.removeFile ("./" ++ e.name)])
      else
        removeRootFiles w rest

/-- The second `move_files` loop: move every entry of `erc20-counter/` into
the root directory, aborting at the first failure. -/
def moveCounterEntries (w : World) : List DirEntry → Option String × List Eff
  | [] => (none, [])
  | e :: rest =>
      if w.renameOk ("erc20-counter/" ++ e.name) ("./" ++ e.name) then
        let r := moveCounterEntries w rest
        (r.1, Eff.rename ("erc20-counter/" ++ e.name) ("./" ++ e.name) :: r.2)
      else
        (some "rename failed", [Eff.rename ("erc20-counter/" ++ e.name) ("./" ++ e.name)])

/-- `App::move_files`: hoist the example subtree to the workspace root. -/
def move_files (w : World) (a : App) : ActOut :=
  let a1 := add_output a "Moving template files to root directory..."
  if w.renameOk "examples/erc20-counter" "./erc20-counter" then
    let e1 := [Eff.rename "examples/erc20-counter" "./erc20-counter"]
    if w.removeDirOk "examples" then
      let e2 := e1 ++ [Eff.removeDirAll "examples"]
      if w.readDirOk "." then
        let rf := removeRootFiles w (w.readDir ".")
        match rf.1 with
        | some e => { err := some e, app := a1, effs := e2 ++ rf.2 }
        | none =>
            if w.readDirOk "erc20-counter" then
              let mv := moveCounterEntries w (w.readDir "erc20-counter")
              match mv.1 with
              | some e => { err := some e, app := a1, effs := e2 ++ rf.2 ++ mv.2 }
              | none =>
                  if w.removeEmptyDirOk "erc20-counter" then
                    { err := none,
                      app := add_output a1 "✓ Project structure set up successfully",
                      effs := e2 ++ rf.2 ++ mv.2 ++ [Eff.removeDir "erc20-counter"] }
                  else
                    { err := some "remove_dir failed", app := a1,
                      effs := e2 ++ rf.2 ++ mv.2 ++ [Eff.removeDir "erc20-counter"] }
            else
              { err := some "read_dir failed", app := a1, effs := e2 ++ rf.2 }
      else
        { err := some "read_dir failed", app := a1, effs := e2 }
    else
      { err := some "remove_dir_all failed", app := a1, effs := e1 ++ [Eff.removeDirAll "examples"] }
  else
    { err := some "rename failed", app := a1,
      effs := [Eff.rename "examples/erc20-counter" "./erc20-counter"] }

mutual

/-- `App::find_cargo_toml_files`: recursive traversal collecting every
`Cargo.toml`.  The recursion over the oracle filesystem is bounded by
`fuel`; the source recursion is unbounded but any real directory tree is
finite, so a directory below the fuel horizon is treated as empty. -/
def find_cargo_toml_files (w : World) : Nat → String → Option String × List String
  | 0, _ => (none, [])
  | fuel + 1, dir =>
      if w.readDirOk dir then
        findLoop w fuel dir (w.readDir dir)
      else
        (some "read_dir failed", [])
termination_by fuel _ => (fuel, 0)

/-- Loop body of the traversal over the entries of one directory; plain
files named `Cargo.toml` are collected, directories are entered
recursively, and a failing recursive read aborts the whole traversal. -/
def findLoop (w : World) (fuel : Nat) (dir : String) :
    List DirEntry → Option String × List String
  | [] => (none, [])
  | e :: rest =>
      if e.isFile then
        let r := findLoop w fuel dir rest
        if e.name = "Cargo.toml" then
          (r.1, (dir ++ "/" ++ e.name) :: r.2)
        else r
      else
        let sub := find_cargo_toml_files w fuel (dir ++ "/" ++ e.name)
        match sub.1 with
        | some err => (some err, [])
        | none =>
            let r := findLoop w fuel dir rest
            (r.1, sub.2 ++ r.2)
termination_by l => (fuel, l.length + 1)

end

/-- The per-file loop of `App::update_dependencies`: read each manifest,
rewrite it, write it back, and log, aborting at the first failure. -/
def updateFilesLoop (w : World) (a : App) : List String → Option String × App × List Eff
  | [] => (none, a, [])
  | p :: rest =>
      if w.readFileOk p then
        let content := rewriteManifest p (w.readFile p)
        if w.writeOk p then
          let a1 := add_output a ("Updated dependencies in: " ++ p)
          let r := updateFilesLoop w a1 rest
          (r.1, r.2.1, Eff.writeFile p content :: r.2.2)
        else
          (some "write failed", a, [Eff.writeFile p content])
      else
        (some "read_to_string failed", a, [])

/-- `App::update_dependencies`: find every manifest under the workspace root
and rewrite its risc0 dependency declarations. -/
def update_dependencies (w : World) (a : App) : ActOut :=
  let found := find_cargo_toml_files w w.fsDepth "."
  match found.1 with
  | some e => { err := some e, app := a, effs := [] }
  | none =>
      let a1 := add_output a "Updating Cargo.toml files with git dependencies..."
      let r := updateFilesLoop w a1 found.2
      match r.1 with
      | some e => { err := some e, app := r.2.1, effs := r.2.2 }
      | none =>
          { err := none,
            app := add_output r.2.1
              "✓ All Cargo.toml files have been updated with git dependencies.",
            effs := r.2.2 }

/-- The `remappings.txt` rewrite inside `App::setup_forge`: repoint the
three remappings at the local `lib/` checkouts and append the
`openzeppelin-contracts` remapping when absent. -/
def remappingsRewrite (content : String) : String :=
  let c := strReplace
    (strReplace
      (strReplace content
        "forge-std/=../../lib/forge-std/src/"
        "forge-std/=lib/forge-std/src/")
      "openzeppelin/=../../lib/openzeppelin-contracts/"
      "openzeppelin/=lib/openzeppelin-contracts/")
    "risc0/=../../contracts/src/"
    "risc0/=lib/risc0-ethereum/contracts/src/"
  if hasSubstr c "openzeppelin-contracts/=" then c
  else c ++ "\nopenzeppelin-contracts/=lib/openzeppelin-contracts/contracts"

/-- The `foundry.toml` rewrite inside `App::setup_forge`: narrow the `libs`
list and force `auto_detect_remappings = false` under `[profile.default]`. -/
def foundryRewrite (content : String) : String :=
  let c := strReplace content
    "libs = [\"../../lib\", \"../../contracts/src\"]"
    "libs = [\"lib\"]"
  if hasSubstr c "auto_detect_remappings" then c
  else if hasSubstr c "[profile.default]" then
    strReplace c "[profile.default]" "[profile.default]\nauto_detect_remappings = false"
  else
    c ++ "\n[profile.default]\nauto_detect_remappings = false"

/-- The ordered external commands run by `App::setup_forge`, paired with
their status descriptions. -/
def forgeCmds : List (String × List String × String) :=
  [("git", ["init"], "Initializing git repository..."),
   ("git", ["submodule", "add", "https://github.com/foundry-rs/forge-std",
            "lib/forge-std"], "Cloning forge-std..."),
   ("git", ["submodule", "add", "https://github.com/OpenZeppelin/openzeppelin-contracts",
            "lib/openzeppelin-contracts"], "Cloning OpenZeppelin..."),
   ("git", ["submodule", "add", "-b", "release-1.3",
            "https://github.com/risc0/risc0-ethereum", "lib/risc0-ethereum"],
    "Cloning risc0-ethereum..."),
   ("git", ["submodule", "update", "--init", "--recursive", "--quiet"],
    "Updating submodules..."),
   ("git", ["reset"], "Resetting git index...")]

/-- The conditional `remappings.txt` phase of `setup_forge`. -/
def forgeRemappings (w : World) (a : App) : ActOut :=
  if w.dirExists "remappings.txt" then
    if w.readFileOk "remappings.txt" then
      let c := remappingsRewrite (w.readFile "remappings.txt")
      if w.writeOk "remappings.txt" then
        { err := none, app := add_output a "✓ Updated remappings.txt",
          effs := [Eff.writeFile "remappings.txt" c] }
      else
        { err := some "write failed", app := a,
          effs := [Eff.writeFile "remappings.txt" c] }
    else
      { err := some "read_to_string failed", app := a, effs := [] }
  else
    { err := none, app := add_output a "Warning: remappings.txt not found", effs := [] }

/-- The conditional `foundry.toml` phase of `setup_forge`. -/
def forgeFoundryToml (w : World) (a : App) : ActOut :=
  if w.dirExists "foundry.toml" then
    if w.readFileOk "foundry.toml" then
      let c := foundryRewrite (w.readFile "foundry.toml")
      if w.writeOk "foundry.toml" then
        { err := none, app := add_output a "✓ Updated foundry.toml",
          effs := [Eff.writeFile "foundry.toml" c] }
      else
        { err := some "write failed", app := a,
          effs := [Eff.writeFile "foundry.toml" c] }
    else
      { err := some "read_to_string failed", app := a, effs := [] }
  else
    { err := none, app := add_output a "Warning: foundry.toml not found", effs := [] }

/-- Interleaved log lines printed between the `setup_forge` submodule
commands, keyed by the index of the command about to run. -/
def forgePreLog : Nat → List String
  | 1 => ["Adding forge-std (1/3)..."]
  | 2 => ["Adding OpenZeppelin (2/3)..."]
  | 3 => ["Adding risc0-ethereum (3/3)..."]
  | 4 => ["Updating submodules recursively (this may take a while)..."]
  | _ => []

/-- The command loop of `setup_forge`, running `forgeCmds` from index `i`
with its interleaved log lines, aborting at the first failure. -/
def forgeCmdLoop (w : World) (a : App) (i : Nat) :
    List (String × List String × String) → Option String × App × List Eff
  | [] => (none, a, [])
  | (cmd, args, desc) :: rest =>
      let a0 := (forgePreLog i).foldl add_output a
      let r := run_command w a0 cmd args desc
      match r.err with
      | some e => (some e, r.app, r.effs)
      | none =>
          let k := forgeCmdLoop w r.app (i + 1) rest
          (k.1, k.2.1, r.effs ++ k.2.2)

/-- `App::setup_forge`: re-initialise git, vendor the three submodules,
update them, reset the index, then patch `remappings.txt` and
`foundry.toml`.  The initial `.git` removal discards its result
(`let _ = ...`). -/
def setup_forge (w : World) (a : App) : ActOut :=
  let a1 := add_output a "Starting Forge setup (this may take a few minutes)..."
  let gitRemove := [Eff.removeDirAll ".git"]
  let r0 := run_command w a1 "git" ["init"] "Initializing git repository..."
  match r0.err with
  | some e => { err := some e, app := r0.app, effs := gitRemove ++ r0.effs }
  | none =>
      if w.createDirOk "lib" then
        let rl := forgeCmdLoop w r0.app 1 (forgeCmds.drop 1)
        match rl.1 with
        | some e =>
            { err := some e, app := rl.2.1,
              effs := gitRemove ++ r0.effs ++ [Eff.createDir "lib"] ++ rl.2.2 }
        | none =>
            let rm := forgeRemappings w rl.2.1
            match rm.err with
            | some e =>
                { err := some e, app := rm.app,
                  effs := gitRemove ++ r0.effs ++ [Eff.createDir "lib"] ++ rl.2.2 ++ rm.effs }
            | none =>
                let ft := forgeFoundryToml w rm.app
                match ft.err with
                | some e =>
                    { err := some e, app := ft.app,
                      effs := gitRemove ++ r0.effs ++ [Eff.createDir "lib"] ++ rl.2.2
                                ++ rm.effs ++ ft.effs }
                | none =>
                    { err := none,
                      app := add_output ft.app "Forge setup completed successfully",
                      effs := gitRemove ++ r0.effs ++ [Eff.createDir "lib"] ++ rl.2.2
                                ++ rm.effs ++ ft.effs }
      else
        { err := some "create_dir_all failed", app := r0.app,
          effs := gitRemove ++ r0.effs ++ [Eff.createDir "lib"] }

/-- Result of one `App::handle_test_step` call: possibly failed, the
(possibly partially mutated) app, the updated parent-process environment,
the effects in order, whether `cleanup_test` ran inside the call, and which
test phase body executed (if any). -/
structure TSOut where
  err : Option String
  app : App
  env : PEnv
  effs : List Eff
  cleaned : Bool
  phase : Option E2ETestStep

/-- The readiness-failure message of the anvil start phase (apostrophe in
"it's" elided, see the header note). -/
def anvilNotReadyMsg : String :=
  "Failed to start Anvil. Please make sure its installed and try again."

/-- A `?`-chained sequence of `run_command` calls: run each command in
order, aborting at the first failure with its error. -/
def cmdSeq (w : World) (a : App) :
    List (String × List String × String) → Option String × App × List Eff
  | [] => (none, a, [])
  | (c, args, d) :: rest =>
      let r := run_command w a c args d
      match r.err with
      | some e => (some e, r.app, r.effs)
      | none =>
          let k := cmdSeq w r.app rest
          (k.1, k.2.1, r.effs ++ k.2.2)

/-- The error such a sequence stops with, if any. -/
def seqErr (w : World) : List (String × List String × String) → Option String
  | [] => none
  | (c, args, _) :: rest =>
      if w.spawnOkCmd c args then
        (if w.cmdOk c args then seqErr w rest else some "Command failed")
      else some "spawn failed"

/-- The three build-and-prepare commands of the validation phase. -/
def testPrepCmds : List (String × List String × String) :=
  [("cargo", ["build"], "Building project to generate contracts..."),
   ("forge", ["build"], "Compiling Solidity contracts..."),
   ("chmod", ["+x", "e2e-test.sh"], "Making test script executable...")]

/-- The hard-coded workspace root the test phase changes into first. -/
def workspaceRoot : String := "/Users/sasha/Developer/tui"

/-- The `RunningTest` phase body: enter the project, build the Rust and
Solidity artifacts, mark the script executable, export the wallet/RPC
variables into the parent environment, and run the script. -/
def runTestPhase (w : World) (a : App) (env : PEnv) : TSOut :=
  let a0 : App := { a with status_message := "Running end-to-end test..." }
  if w.chdirOk workspaceRoot then
    let a1 := add_output a0 ("Changing to project directory: " ++ a0.project_name)
    if w.chdirOk a1.project_name then
      let pre := [Eff.chdir workspaceRoot, Eff.chdir a1.project_name]
      let r3 := cmdSeq w a1 testPrepCmds
      match r3.1 with
      | some e =>
          { err := some e, app := r3.2.1, env := env, effs := pre ++ r3.2.2,
            cleaned := false, phase := some E2ETestStep.RunningTest }
      | none =>
          let env1 := envSet env "BONSAI_API_URL" "https://api.bonsai.xyz"
          let env2 := envSet env1 "ETH_WALLET_ADDRESS"
            "0xf39Fd6e51aad88F6F4ce6aB8827279cffFb92266"
          let env3 := envSet env2 "ETH_WALLET_PRIVATE_KEY"
            "0xac0974bec39a17e36ba4a6b4d238ff944bacb478cbed5efcae784d7bf4f2ff80"
          let env4 := envSet env3 "ETH_RPC_URL" "http://localhost:8545"
          let r4 := run_command w r3.2.1 "bash" ["e2e-test.sh"]
            "Running end-to-end test script..."
          match r4.err with
          | some e =>
              { err := some e, app := r4.app, env := env4,
                effs := pre ++ r3.2.2 ++ r4.effs,
                cleaned := false, phase := some E2ETestStep.RunningTest }
          | none =>
              { err := none,
                app := { r4.app with
                  status_message := "✓ End-to-end test completed successfully",
                  state := AppState.Testing E2ETestStep.Cleanup },
                env := env4,
                effs := pre ++ r3.2.2 ++ r4.effs,
                cleaned := false, phase := some E2ETestStep.RunningTest }
    else
      { err := some "set_current_dir failed", app := a1, env := env,
        effs := [Eff.chdir workspaceRoot, Eff.chdir a1.project_name],
        cleaned := false, phase := some E2ETestStep.RunningTest }
  else
    { err := some "set_current_dir failed", app := a0, env := env,
      effs := [Eff.chdir workspaceRoot],
      cleaned := false, phase := some E2ETestStep.RunningTest }

/-- `App::handle_test_step`: one tick of the end-to-end test phase machine.
Does nothing unless a `TestEnvironment` is held. -/
def handle_test_step (w : World) (a : App) (env : PEnv) : TSOut :=
  match a.test_env with
  | none =>
      { err := none, app := a, env := env, effs := [], cleaned := false, phase := none }
  | some te =>
      match a.state with
      | AppState.Testing E2ETestStep.PreparingEnvironment =>
          let env1 := envSet env "ETH_RPC_URL" te.eth_rpc_url
          let env2 := envSet env1 "ETH_WALLET_ADDRESS" te.eth_wallet_address
          let env3 := envSet env2 "ETH_WALLET_PRIVATE_KEY" te.eth_wallet_private_key
          let env4 := envSet env3 "BONSAI_API_KEY" te.bonsai_api_key
          let env5 := envSet env4 "BONSAI_API_URL" te.bonsai_api_url
          { err := none,
            app := { a with
              status_message := "Environment variables set, starting Anvil...",
              state := AppState.Testing E2ETestStep.StartingAnvil },
            env := env5, effs := [], cleaned := false,
            phase := some E2ETestStep.PreparingEnvironment }
      | AppState.Testing E2ETestStep.StartingAnvil =>
          let a1 : App := { a with status_message := "Starting local Ethereum chain..." }
          if w.anvilSpawnOk then
            let a2 : App := { a1 with
              test_env := some { te with anvil_process := some w.anvilHandle } }
            if w.curlOk then
              { err := none,
                app := { a2 with
                  status_message := "✓ Local Ethereum chain started",
                  state := AppState.Testing E2ETestStep.RunningTest },
                env := env,
                effs := [Eff.pkill "anvil", Eff.spawnProc "anvil",
                         Eff.sleepMs 2000, Eff.curlCheck "http://localhost:8545"],
                cleaned := false, phase := some E2ETestStep.StartingAnvil }
            else
              { err := some anvilNotReadyMsg, app := a2, env := env,
                effs := [Eff.pkill "anvil", Eff.spawnProc "anvil",
                         Eff.sleepMs 2000, Eff.curlCheck "http://localhost:8545"],
                cleaned := false, phase := some E2ETestStep.StartingAnvil }
          else
            { err := some "spawn failed", app := a1, env := env,
              effs := [Eff.pkill "anvil", Eff.spawnProc "anvil"],
              cleaned := false, phase := some E2ETestStep.StartingAnvil }
      | AppState.Testing E2ETestStep.RunningTest =>
          runTestPhase w a env
      | AppState.Testing E2ETestStep.Cleanup =>
          let a1 : App := { a with status_message := "Cleaning up..." }
          let c := cleanup_test a1
          { err := none,
            app := { c.1 with status_message := "✓ Cleanup completed",
                              state := AppState.TestMenu },
            env := env, effs := c.2, cleaned := true,
            phase := some E2ETestStep.Cleanup }
      | _ =>
          { err := none, app := a, env := env, effs := [], cleaned := false, phase := none }

/-- Dispatch of one installation step to its action, as in the
`AppState::Installing` arm of `App::run`. -/
def stepAction (w : World) : InstallStep → App → ActOut
  | InstallStep.CloningRepo => clone_repository w
  | InstallStep.SettingUpSparse => setup_sparse_checkout w
  | InstallStep.MovingFiles => fun a => move_files w a
  | InstallStep.UpdatingDependencies => fun a => update_dependencies w a
  | InstallStep.SettingUpForge => setup_forge w

/-- The state entered when an installation step succeeds. -/
def nextAfter : InstallStep → AppState
  | InstallStep.CloningRepo => AppState.Installing InstallStep.SettingUpSparse
  | InstallStep.SettingUpSparse => AppState.Installing InstallStep.MovingFiles
  | InstallStep.MovingFiles => AppState.Installing InstallStep.UpdatingDependencies
  | InstallStep.UpdatingDependencies => AppState.Installing InstallStep.SettingUpForge
  | InstallStep.SettingUpForge => AppState.Success

/-- Control mode of the whole process: the normal `App::run` loop, the
blocking `App::handle_error` loop (entered when an install step fails, left
only through `process::exit(1)` on Esc), or process exit with a code. -/
inductive RunMode where
  | running
  | errorHalt
  | exited (code : Nat)
  deriving DecidableEq, Repr

/-- Whole-process state: the app, the parent-process environment, and the
control mode. -/
structure Sys where
  app : App
  env : PEnv
  mode : RunMode

/-- Per-tick observables: which install step action ran, which test phase
body ran, and whether `cleanup_test` was invoked during the tick. -/
structure Obs where
  ranStep : Option InstallStep
  ranPhase : Option E2ETestStep
  cleaned : Bool
  deriving DecidableEq, Repr

/-- The empty observation. -/
def noObs : Obs := { ranStep := none, ranPhase := none, cleaned := false }

/-- The state-specific unit of work of one `App::run` loop iteration
(everything after the key polling). -/
def stateWork (w : World) (s : Sys) : Sys × List Eff × Obs :=
  match s.app.state with
  | AppState.CheckingDependencies =>
      let a0 := s.app
      let (rOk, a1, e1) :=
        if ¬ a0.rust_installed then
          let r := check_rust w a0
          (r.1, r.2.1, r.2.2)
        else (a0.rust_installed, a0, [])
      let a1 := { a1 with rust_installed := rOk }
      let (fOk, a2, e2) :=
        if ¬ a1.foundry_installed then
          let r := check_foundry w a1
          (r.1, r.2.1, r.2.2)
        else (a1.foundry_installed, a1, [])
      let a2 := { a2 with foundry_installed := fOk }
      let (a3, e3) :=
        if a2.risc0_version.isNone then
          let r := check_risc0 w a2
          (r.2.1, r.2.2)
        else (a2, [])
      let a4 :=
        if a3.rust_installed ∧ a3.foundry_installed ∧ a3.risc0_version.isSome then
          { a3 with state := AppState.EnteringProjectName,
                    status_message := "Enter project name (press Enter when done):" }
        else a3
      ({ s with app := a4 }, e1 ++ e2 ++ e3, noObs)
  | AppState.Installing i =>
      let r := stepAction w i s.app
      match r.err with
      | none =>
          let a1 :=
            if i = InstallStep.SettingUpForge then
              { r.app with state := nextAfter i,
                           status_message :=
                             "✓ Project " ++ r.app.project_name ++ " created successfully!" }
            else
              { r.app with state := nextAfter i }
          ({ s with app := a1 }, r.effs,
           { ranStep := some i, ranPhase := none, cleaned := false })
      | some e =>
          let a1 := { r.app with status_message := "Error: " ++ e ++ "\nPress Esc to exit" }
          ({ s with app := a1, mode := RunMode.errorHalt }, r.effs,
           { ranStep := some i, ranPhase := none, cleaned := false })
  | AppState.Testing _ =>
      let r := handle_test_step w s.app s.env
      match r.err with
      | none =>
          ({ s with app := r.app, env := r.env }, r.effs,
           { ranStep := none, ranPhase := r.phase, cleaned := r.cleaned })
      | some e =>
          let a1 := add_output r.app ("Error: " ++ e)
          let c := cleanup_test a1
          ({ s with app := { c.1 with state := AppState.TestMenu }, env := r.env },
           r.effs ++ c.2,
           { ranStep := none, ranPhase := r.phase, cleaned := true })
  | AppState.Finished =>
      ({ s with mode := RunMode.exited 0 }, [], noObs)
  | _ => (s, [], noObs)

/-- Whether a polled key event is the Esc acknowledgment `App::handle_error`
waits for (it inspects only the key code, not the event kind). -/
def isEscEvent : Option KeyEvent → Bool
  | some k => k.code = KeyCode.Esc
  | none => false

/-- One iteration of the process: in `running` mode, poll one optional key
event through `App::handle_key_event` (returning from the loop, that is
exiting with code 0, when it signals quit) and then perform the
state-specific work; in `errorHalt` mode, wait for Esc and exit with code 1;
after exit, do nothing. -/
def sysTick (w : World) (k : Option KeyEvent) (s : Sys) : Sys × List Eff × Obs :=
  match s.mode with
  | RunMode.exited _ => (s, [], noObs)
  | RunMode.errorHalt =>
      if isEscEvent k then ({ s with mode := RunMode.exited 1 }, [], noObs)
      else (s, [], noObs)
  | RunMode.running =>
      let (quit, a1) :=
        match k with
        | some ke => handle_key_event w ke s.app
        | none => (false, s.app)
      if quit then
        ({ s with app := a1, mode := RunMode.exited 0 }, [], noObs)
      else
        stateWork w { s with app := a1 }

/-- Run the loop for one tick per supplied key slot, accumulating effects
and observations in order. -/
def runSys (w : World) (s : Sys) : List (Option KeyEvent) → Sys × List Eff × List Obs
  | [] => (s, [], [])
  | k :: ks =>
      let t := sysTick w k s
      let r := runSys w t.1 ks
      (r.1, t.2.1 ++ r.2.1, t.2.2 :: r.2.2)

/-- The install steps whose actions executed, in order. -/
def execSteps (l : List Obs) : List InstallStep :=
  l.filterMap (fun o => o.ranStep)

/-- The test phases whose bodies executed, in order. -/
def execPhases (l : List Obs) : List E2ETestStep :=
  l.filterMap (fun o => o.ranPhase)

/-- How many ticks invoked `cleanup_test`. -/
def cleanCount (l : List Obs) : Nat :=
  l.countP (fun o => o.cleaned)

/-- Success of one `run_command` call: the spawn succeeds and the child
exits with status zero. -/
def run_ok (w : World) (cmd : String) (args : List String) : Bool :=
  w.spawnOkCmd cmd args && w.cmdOk cmd args

/-- Success predicate of each installation step as a function of the oracle
and the project name only (the step actions read nothing else from the
app); proved equivalent to the absence of an error from `stepAction`. -/
def stepOk (w : World) (name : String) : InstallStep → Bool
  | InstallStep.CloningRepo =>
      (!w.dirExists name || w.removeDirOk name) && run_ok w "git" (cloneArgs name)
  | InstallStep.SettingUpSparse =>
      w.chdirOk name
        && run_ok w "git" ["sparse-checkout", "set", "examples/erc20-counter"]
        && run_ok w "git" ["checkout"]
        && w.dirExists "examples/erc20-counter"
  | InstallStep.MovingFiles =>
      w.renameOk "examples/erc20-counter" "./erc20-counter"
        && w.removeDirOk "examples"
        && w.readDirOk "."
        && (w.readDir ".").all (fun e => !e.isFile || w.removeFileOk ("./" ++ e.name))
        && w.readDirOk "erc20-counter"
        && (w.readDir "erc20-counter").all
             (fun e => w.renameOk ("erc20-counter/" ++ e.name) ("./" ++ e.name))
        && w.removeEmptyDirOk "erc20-counter"
  | InstallStep.UpdatingDependencies =>
      (find_cargo_toml_files w w.fsDepth ".").1.isNone
        && (find_cargo_toml_files w w.fsDepth ".").2.all
             (fun p => w.readFileOk p && w.writeOk p)
  | InstallStep.SettingUpForge =>
      run_ok w "git" ["init"]
        && w.createDirOk "lib"
        && (forgeCmds.drop 1).all (fun c => run_ok w c.1 c.2.1)
        && (!w.dirExists "remappings.txt"
              || (w.readFileOk "remappings.txt" && w.writeOk "remappings.txt"))
        && (!w.dirExists "foundry.toml"
              || (w.readFileOk "foundry.toml" && w.writeOk "foundry.toml"))

/-- The declared installation order. -/
def installOrder : List InstallStep :=
  [InstallStep.CloningRepo, InstallStep.SettingUpSparse, InstallStep.MovingFiles,
   InstallStep.UpdatingDependencies, InstallStep.SettingUpForge]

/-- Number of leading installation steps that succeed under the oracle. -/
def succPrefix (w : World) (name : String) : Nat :=
  if stepOk w name InstallStep.CloningRepo then
    if stepOk w name InstallStep.SettingUpSparse then
      if stepOk w name InstallStep.MovingFiles then
        if stepOk w name InstallStep.UpdatingDependencies then
          if stepOk w name InstallStep.SettingUpForge then 5 else 4
        else 3
      else 2
    else 1
  else 0

/-- Number of installation-step actions a complete run executes: every
succeeding step plus, if one fails, the failing step itself. -/
def execCount (w : World) (name : String) : Nat :=
  min 5 (succPrefix w name + 1)

/-- The sequence of step actions executed when the pipeline is entered at a
given step and run to completion: each entered step executes, and the next
step is entered exactly when it succeeds. -/
def idealFromStep (w : World) (name : String) : InstallStep → List InstallStep
  | InstallStep.SettingUpForge => [InstallStep.SettingUpForge]
  | InstallStep.UpdatingDependencies =>
      InstallStep.UpdatingDependencies ::
        (if stepOk w name InstallStep.UpdatingDependencies then
          [InstallStep.SettingUpForge] else [])
  | InstallStep.MovingFiles =>
      InstallStep.MovingFiles ::
        (if stepOk w name InstallStep.MovingFiles then
          InstallStep.UpdatingDependencies ::
            (if stepOk w name InstallStep.UpdatingDependencies then
              [InstallStep.SettingUpForge] else [])
        else [])
  | InstallStep.SettingUpSparse =>
      InstallStep.SettingUpSparse ::
        (if stepOk w name InstallStep.SettingUpSparse then
          InstallStep.MovingFiles ::
            (if stepOk w name InstallStep.MovingFiles then
              InstallStep.UpdatingDependencies ::
                (if stepOk w name InstallStep.UpdatingDependencies then
                  [InstallStep.SettingUpForge] else [])
            else [])
        else [])
  | InstallStep.CloningRepo =>
      InstallStep.CloningRepo ::
        (if stepOk w name InstallStep.CloningRepo then
          InstallStep.SettingUpSparse ::
            (if stepOk w name InstallStep.SettingUpSparse then
              InstallStep.MovingFiles ::
                (if stepOk w name InstallStep.MovingFiles then
                  InstallStep.UpdatingDependencies ::
                    (if stepOk w name InstallStep.UpdatingDependencies then
                      [InstallStep.SettingUpForge] else [])
                else [])
            else [])
        else [])

/-- Success predicate of the anvil start phase. -/
def startAnvilOk (w : World) : Bool :=
  w.anvilSpawnOk && w.curlOk

/-- Success predicate of the validation-script phase (it depends on the
oracle and the project name only). -/
def runTestOk (w : World) (name : String) : Bool :=
  w.chdirOk workspaceRoot && w.chdirOk name
    && run_ok w "cargo" ["build"] && run_ok w "forge" ["build"]
    && run_ok w "chmod" ["+x", "e2e-test.sh"] && run_ok w "bash" ["e2e-test.sh"]

/-- Number of ticks a test-run invocation takes from
`Testing(PreparingEnvironment)` back to `TestMenu`. -/
def testTicks (w : World) (name : String) : Nat :=
  if startAnvilOk w then (if runTestOk w name then 4 else 3) else 2

/-- The test phases whose bodies execute during one test-run invocation:
the prefix of the declared phase order up to and including the first
failing phase (the environment-preparation and cleanup phases cannot
fail). -/
def idealPhases (w : World) (name : String) : List E2ETestStep :=
  E2ETestStep.PreparingEnvironment :: E2ETestStep.StartingAnvil ::
    (if startAnvilOk w then
      E2ETestStep.RunningTest ::
        (if runTestOk w name then [E2ETestStep.Cleanup] else [])
    else [])

/-- Whether some phase of the test run fails under the oracle. -/
def testFails (w : World) (name : String) : Bool :=
  !(startAnvilOk w && runTestOk w name)

/-- The first error message a failing test run produces, matching the
first failing external call in program order. -/
def testErrMsg (w : World) (name : String) : String :=
  if !w.anvilSpawnOk then "spawn failed"
  else if !w.curlOk then anvilNotReadyMsg
  else if !w.chdirOk workspaceRoot then "set_current_dir failed"
  else if !w.chdirOk name then "set_current_dir failed"
  else if !w.spawnOkCmd "cargo" ["build"] then "spawn failed"
  else if !w.cmdOk "cargo" ["build"] then "Command failed"
  else if !w.spawnOkCmd "forge" ["build"] then "spawn failed"
  else if !w.cmdOk "forge" ["build"] then "Command failed"
  else if !w.spawnOkCmd "chmod" ["+x", "e2e-test.sh"] then "spawn failed"
  else if !w.cmdOk "chmod" ["+x", "e2e-test.sh"] then "Command failed"
  else if !w.spawnOkCmd "bash" ["e2e-test.sh"] then "spawn failed"
  else "Command failed"

/-- The first error message of a failing validation phase, matching the
first failing external call of `runTestPhase` in program order. -/
def runErrMsg (w : World) (name : String) : String :=
  if !w.chdirOk workspaceRoot then "set_current_dir failed"
  else if !w.chdirOk name then "set_current_dir failed"
  else
    match seqErr w testPrepCmds with
    | some e => e
    | none =>
        if !w.spawnOkCmd "bash" ["e2e-test.sh"] then "spawn failed"
        else "Command failed"

/-- The claimed exit behavior of Esc per state (`App::handle_key_event`):
it quits the main loop from the confirmation dialog, the success screen,
the name prompt and the test menu; everywhere else it does not. -/
def escQuits : AppState → Bool
  | AppState.ConfirmOverwrite => true
  | AppState.Success => true
  | AppState.EnteringProjectName => true
  | AppState.TestMenu => true
  | _ => false

/-- An all-succeeding oracle used to instantiate witnesses. -/
def wAll : World :=
  { dirExists := fun _ => true, removeDirOk := fun _ => true,
    removeEmptyDirOk := fun _ => true, removeFileOk := fun _ => true,
    renameOk := fun _ _ => true, createDirOk := fun _ => true,
    chdirOk := fun _ => true, readDirOk := fun _ => true,
    readDir := fun _ => [], readFileOk := fun _ => true,
    readFile := fun _ => "", writeOk := fun _ => true,
    spawnOkCmd := fun _ _ => true, cmdOk := fun _ _ => true,
    cmdLines := fun _ _ => [], risc0Output := some "1.2.0",
    anvilSpawnOk := true, anvilHandle := 7, curlOk := true, fsDepth := 4 }

/-- A fresh app as `App::new` builds it. -/
def newApp : App :=
  { state := AppState.CheckingDependencies, project_name := "",
    status_message := "Checking dependencies...", rust_installed := false,
    foundry_installed := false, risc0_version := none, command_output := [],
    output_scroll := 0, pending_redraw := false, selected_menu_item := 0,
    confirm_menu_item := 0, test_env := none, bonsai_api_key := "" }

/-- The `TestEnvironment` built when the Bonsai key "k" is submitted. -/
def teK : TestEnvironment :=
  { eth_rpc_url := "http://localhost:8545",
    eth_wallet_address := "0xf39Fd6e51aad88F6F4ce6aB8827279cffFb92266",
    eth_wallet_private_key :=
      "0xac0974bec39a17e36ba4a6b4d238ff944bacb478cbed5efcae784d7bf4f2ff80",
    bonsai_api_key := "k", bonsai_api_url := "https://api.bonsai.xyz",
    anvil_process := none }

/-- The empty parent environment. -/
def emptyEnv : PEnv := fun _ => none

/-- A press event for a key code. -/
def press (c : KeyCode) : KeyEvent := { code := c, kind := KeyEventKind.Press }

/-- A test environment with a held anvil child handle. -/
def teHeld : TestEnvironment := { teK with anvil_process := some 7 }

/-- An app waiting for the Bonsai key with a non-empty buffer. -/
def appBonsai : App :=
  { newApp with state := AppState.EnteringBonsaiKey, project_name := "demo",
                bonsai_api_key := "k" }

/-- An app sitting in the test menu with a one-line output log. -/
def appScroll : App :=
  { newApp with state := AppState.TestMenu, command_output := ["line"] }

/-- An app at the name prompt with an empty input buffer. -/
def appNameEmpty : App := { newApp with state := AppState.EnteringProjectName }

/-- An app at the Bonsai key prompt with an empty input buffer. -/
def appKeyEmpty : App := { newApp with state := AppState.EnteringBonsaiKey }

/-- An app holding a live anvil handle. -/
def appHeld : App :=
  { newApp with state := AppState.Testing E2ETestStep.Cleanup,
                project_name := "demo", test_env := some teHeld }

/-- A system state at the beginning of an installation run for project
"demo". -/
def installStart : Sys :=
  { app := { newApp with state := AppState.Installing InstallStep.CloningRepo,
                         project_name := "demo" },
    env := emptyEnv, mode := RunMode.running }

/-- A system stuck in the blocking error display. -/
def errHaltSys : Sys :=
  { app := newApp, env := emptyEnv, mode := RunMode.errorHalt }

/-- Six empty key slots (six ticks with no input). -/
def keys6 : List (Option KeyEvent) := [none, none, none, none, none, none]

/-- The post-installation states: from any of these the wizard can never
re-enter an `Installing` state, so no install step action can run. -/
def SafeState : AppState → Bool
  | AppState.Success => true
  | AppState.TestMenu => true
  | AppState.EnteringBonsaiKey => true
  | AppState.Testing _ => true
  | AppState.Finished => true
  | _ => false

/-- A system from which no install step action can ever run: either the
run loop is no longer in its normal mode, or the app sits in a
post-installation state. -/
def SafeSys (s : Sys) : Prop :=
  s.mode ≠ RunMode.running ∨ SafeState s.app.state = true

/-- A system state at the beginning of a test-run invocation (the Bonsai
key "k" has just been submitted). -/
def sysTestStart : Sys :=
  { app := { newApp with state := AppState.Testing E2ETestStep.PreparingEnvironment,
                         project_name := "demo", test_env := some teK },
    env := emptyEnv, mode := RunMode.running }

/-- A manifest path inside an apps directory. -/
def cexAppsPath : String := "./demo/apps/Cargo.toml"

/-- A workspace manifest (with a `[workspace.dependencies]` table) declaring
the path-based `risc0-steel` dependency. -/
def cexWsContent : String :=
  "[workspace]\n[workspace.dependencies]\n" ++ wsSteelNeedle

/-- A plain (non-workspace) manifest declaring the path-based `risc0-steel`
dependency. -/
def cexPlainContent : String :=
  "[package]\n" ++ wsSteelNeedle

/-! ## Basic preservation lemmas -/

@[simp]
theorem add_output_project_name (a : App) (l : String) :
    (add_output a l).project_name = a.project_name := rfl

@[simp]
theorem add_output_state (a : App) (l : String) :
    (add_output a l).state = a.state := rfl

@[simp]
theorem add_output_test_env (a : App) (l : String) :
    (add_output a l).test_env = a.test_env := rfl

@[simp]
theorem foldl_add_output_project_name (ls : List String) :
    ∀ a : App, (ls.foldl add_output a).project_name = a.project_name := by
  induction ls with
  | nil => intro a; rfl
  | cons x xs ih => intro a; simpa using ih (add_output a x)

@[simp]
theorem foldl_add_output_state (ls : List String) :
    ∀ a : App, (ls.foldl add_output a).state = a.state := by
  induction ls with
  | nil => intro a; rfl
  | cons x xs ih => intro a; simpa using ih (add_output a x)

@[simp]
theorem foldl_add_output_test_env (ls : List String) :
    ∀ a : App, (ls.foldl add_output a).test_env = a.test_env := by
  induction ls with
  | nil => intro a; rfl
  | cons x xs ih => intro a; simpa using ih (add_output a x)

theorem run_command_err (w : World) (a : App) (c : String) (args : List String)
    (d : String) :
    (run_command w a c args d).err =
      (if w.spawnOkCmd c args then
        (if w.cmdOk c args then none else some "Command failed")
      else some "spawn failed") := by
  unfold run_command
  by_cases h1 : w.spawnOkCmd c args <;> by_cases h2 : w.cmdOk c args <;> simp [h1, h2]

theorem run_command_err_isNone (w : World) (a : App) (c : String)
    (args : List String) (d : String) :
    (run_command w a c args d).err.isNone = run_ok w c args := by
  rw [run_command_err]
  unfold run_ok
  by_cases h1 : w.spawnOkCmd c args <;> by_cases h2 : w.cmdOk c args <;> simp [h1, h2]

@[simp]
theorem run_command_project_name (w : World) (a : App) (c : String)
    (args : List String) (d : String) :
    (run_command w a c args d).app.project_name = a.project_name := by
  unfold run_command
  by_cases h1 : w.spawnOkCmd c args <;> by_cases h2 : w.cmdOk c args <;> simp [h1, h2]

@[simp]
theorem run_command_state (w : World) (a : App) (c : String)
    (args : List String) (d : String) :
    (run_command w a c args d).app.state = a.state := by
  unfold run_command
  by_cases h1 : w.spawnOkCmd c args <;> by_cases h2 : w.cmdOk c args <;> simp [h1, h2]

@[simp]
theorem run_command_test_env (w : World) (a : App) (c : String)
    (args : List String) (d : String) :
    (run_command w a c args d).app.test_env = a.test_env := by
  unfold run_command
  by_cases h1 : w.spawnOkCmd c args <;> by_cases h2 : w.cmdOk c args <;> simp [h1, h2]

/-! ## Key-handling inertness -/

theorem keyStateBranch_scroll_inert (w : World) (k : KeyEvent) (a : App) :
    (k.code = KeyCode.PageUp ∨ k.code = KeyCode.PageDown) →
    keyStateBranch w k a = (false, a) := by
  intro h
  rcases a with ⟨st, pn, sm, ri, fi, rv, co, os, pr, smi, cmi, te, bk⟩
  rcases h with h | h <;> cases st <;> simp [keyStateBranch, h]

theorem keyStateBranch_output_scroll (w : World) (k : KeyEvent) (a : App) :
    ((keyStateBranch w k a).2).output_scroll = a.output_scroll := by
  rcases a with ⟨st, pn, sm, ri, fi, rv, co, os, pr, smi, cmi, te, bk⟩
  cases st <;> cases hk : k.code <;>
    simp [keyStateBranch, hk] <;> (repeat' split) <;> simp_all

/-! ## C3: the stop operation is total and idempotent -/

/-- Claim C3: `cleanup_test` is total and idempotent: it always ends with the
broad name-based `pkill anvil`; when a child handle is held the handle is
killed first and relinquished; when no test environment is held only the
broad kill happens and the app is untouched; and a second call is a no-op on
the state that performs no further handle kill. -/
theorem c3_cleanup_test_idempotent (a b : App) (te : TestEnvironment) (hnd : Nat)
    (hte : a.test_env = some te) (hh : te.anvil_process = some hnd)
    (hb : b.test_env = none) :
    (cleanup_test a).2 = [Eff.killChild hnd, Eff.pkill "anvil"] ∧
    (cleanup_test a).1.test_env = some { te with anvil_process := none } ∧
    cleanup_test b = (b, [Eff.pkill "anvil"]) ∧
    cleanup_test (cleanup_test a).1 = ((cleanup_test a).1, [Eff.pkill "anvil"]) := by
  refine ⟨?_, ?_, ?_, ?_⟩
  · simp [cleanup_test, hte, hh]
  · simp [cleanup_test, hte, hh]
  · simp [cleanup_test, hb]
  · simp [cleanup_test, hte, hh]

/-- Concrete instantiation of `c3_cleanup_test_idempotent` at an app holding
handle 7 and at a fresh app holding nothing. -/
theorem c3_cleanup_test_idempotent_witness :
    (cleanup_test appHeld).2 = [Eff.killChild 7, Eff.pkill "anvil"] ∧
    (cleanup_test appHeld).1.test_env = some { teHeld with anvil_process := none } ∧
    cleanup_test newApp = (newApp, [Eff.pkill "anvil"]) ∧
    cleanup_test (cleanup_test appHeld).1 =
      ((cleanup_test appHeld).1, [Eff.pkill "anvil"]) :=
  c3_cleanup_test_idempotent appHeld newApp teHeld 7 rfl rfl rfl

/-! ## C10: Enter on an empty input buffer is a no-op -/

/-- Claim C10: in both text-entry states, pressing Enter with an empty input
buffer changes nothing and does not signal quit, so neither installation nor
a test run can start from an empty name or credential. -/
theorem c10_empty_enter_noop (w : World) (a : App) :
    (a.state = AppState.EnteringProjectName → a.project_name = "" →
      handle_key_event w (press KeyCode.Enter) a = (false, a)) ∧
    (a.state = AppState.EnteringBonsaiKey → a.bonsai_api_key = "" →
      handle_key_event w (press KeyCode.Enter) a = (false, a)) := by
  constructor <;> intro h1 h2 <;>
    simp [handle_key_event, keyStateBranch, press, h1, h2, scrollHandle]

/-- Concrete instantiation of `c10_empty_enter_noop` at the two empty-buffer
prompts. -/
theorem c10_empty_enter_noop_witness :
    handle_key_event wAll (press KeyCode.Enter) appNameEmpty = (false, appNameEmpty) ∧
    handle_key_event wAll (press KeyCode.Enter) appKeyEmpty = (false, appKeyEmpty) :=
  ⟨(c10_empty_enter_noop wAll appNameEmpty).1 rfl rfl,
   (c10_empty_enter_noop wAll appKeyEmpty).2 rfl rfl⟩

/-! ## C5: Esc behavior per state -/

/-- Counterexample to claim C5: in the (non-blocked, input-accepting)
`EnteringBonsaiKey` state an Esc press does not signal termination of the
main loop; it cancels back to the test menu instead.  Esc is likewise
ignored in the (non-blocked) `CheckingDependencies` state. -/
theorem c5_esc_counterexample :
    (handle_key_event wAll (press KeyCode.Esc) appBonsai).1 = false ∧
    (handle_key_event wAll (press KeyCode.Esc) appBonsai).2.state = AppState.TestMenu ∧
    (handle_key_event wAll (press KeyCode.Esc) newApp).1 = false := by
  refine ⟨?_, ?_, ?_⟩ <;> rfl

/-- Claim C5 as amended: an Esc press quits the main loop exactly in the
`ConfirmOverwrite`, `Success`, `EnteringProjectName` and `TestMenu` states;
in `EnteringBonsaiKey` it cancels back to the test menu; in every other
state it leaves the state unchanged. -/
theorem c5_esc_amended (w : World) (a : App) :
    (handle_key_event w (press KeyCode.Esc) a).1 = escQuits a.state ∧
    (a.state = AppState.EnteringBonsaiKey →
      (handle_key_event w (press KeyCode.Esc) a).2.state = AppState.TestMenu) ∧
    (escQuits a.state = false → a.state ≠ AppState.EnteringBonsaiKey →
      (handle_key_event w (press KeyCode.Esc) a).2.state = a.state) := by
  rcases a with ⟨st, pn, sm, ri, fi, rv, co, os, pr, smi, cmi, te, bk⟩
  cases st <;>
    simp [handle_key_event, keyStateBranch, press, escQuits, scrollHandle]

/-- Concrete instantiation of `c5_esc_amended` at the Bonsai-key prompt and
at the fresh dependency-probe state. -/
theorem c5_esc_amended_witness :
    (handle_key_event wAll (press KeyCode.Esc) appBonsai).1 = escQuits appBonsai.state ∧
    (handle_key_event wAll (press KeyCode.Esc) appBonsai).2.state = AppState.TestMenu ∧
    (handle_key_event wAll (press KeyCode.Esc) newApp).2.state = newApp.state :=
  ⟨(c5_esc_amended wAll appBonsai).1,
   (c5_esc_amended wAll appBonsai).2.1 rfl,
   (c5_esc_amended wAll newApp).2.2 rfl (by decide)⟩

/-! ## C7: the scroll offset bounds -/

/-- Counterexample to claim C7: with a one-line output log and the cursor at
offset 0, a PageDown press moves the offset to 1, strictly beyond
`max 0 (len - 1) = 0`; the code bounds the offset only by the `u16` range,
not by the log length. -/
theorem c7_scroll_counterexample :
    (handle_key_event wAll (press KeyCode.PageDown) appScroll).2.output_scroll = 1 ∧
    ¬((handle_key_event wAll (press KeyCode.PageDown) appScroll).2.output_scroll
        ≤ max 0 (appScroll.command_output.length - 1)) := by
  constructor
  · rfl
  · decide

/-- Claim C7 as amended: after any key event the scroll offset obeys
saturating `u16` arithmetic with no bound tied to the log length: PageUp
decrements saturating at 0 (so scroll-up at offset 0 leaves it at 0),
PageDown on a non-empty log increments saturating at 65535, PageDown on an
empty log and every other key leave the offset unchanged. -/
theorem c7_scroll_amended (w : World) (k : KeyEvent) (a : App) :
    (k = press KeyCode.PageUp →
      (handle_key_event w k a).2.output_scroll = a.output_scroll - 1) ∧
    (k = press KeyCode.PageDown → a.command_output ≠ [] →
      (handle_key_event w k a).2.output_scroll = min (a.output_scroll + 1) 65535) ∧
    (k = press KeyCode.PageDown → a.command_output = [] →
      (handle_key_event w k a).2.output_scroll = a.output_scroll) ∧
    (k.code ≠ KeyCode.PageUp → k.code ≠ KeyCode.PageDown →
      (handle_key_event w k a).2.output_scroll = a.output_scroll) ∧
    (k.kind ≠ KeyEventKind.Press →
      (handle_key_event w k a).2.output_scroll = a.output_scroll) := by
  refine ⟨?_, ?_, ?_, ?_, ?_⟩
  · rintro rfl
    have hb := keyStateBranch_scroll_inert w (press KeyCode.PageUp) a (Or.inl rfl)
    simp only [press] at hb
    simp [handle_key_event, press, hb, scrollHandle]
    split <;> simp_all
  · rintro rfl hco
    have hb := keyStateBranch_scroll_inert w (press KeyCode.PageDown) a (Or.inr rfl)
    simp only [press] at hb
    rcases hco' : a.command_output with _ | ⟨x, xs⟩
    · exact absurd hco' hco
    · simp [handle_key_event, press, hb, scrollHandle, hco']
  · rintro rfl hco
    have hb := keyStateBranch_scroll_inert w (press KeyCode.PageDown) a (Or.inr rfl)
    simp only [press] at hb
    simp [handle_key_event, press, hb, scrollHandle, hco]
  · intro h1 h2
    by_cases hk : k.kind = KeyEventKind.Press
    · have hos := keyStateBranch_output_scroll w k a
      unfold handle_key_event
      simp only [hk, ne_eq, not_true_eq_false, if_false, ite_false]
      split
      · simpa using hos
      · cases hc : k.code <;> simp_all [scrollHandle]
    · simp [handle_key_event, hk]
  · intro hk
    simp [handle_key_event, hk]

/-- Concrete instantiation of `c7_scroll_amended`: PageUp at offset 0 stays
at 0 and PageDown with a non-empty log increments by one. -/
theorem c7_scroll_amended_witness :
    (handle_key_event wAll (press KeyCode.PageUp) appScroll).2.output_scroll
        = appScroll.output_scroll - 1 ∧
    (handle_key_event wAll (press KeyCode.PageDown) appScroll).2.output_scroll
        = min (appScroll.output_scroll + 1) 65535 :=
  ⟨(c7_scroll_amended wAll (press KeyCode.PageUp) appScroll).1 rfl,
   (c7_scroll_amended wAll (press KeyCode.PageDown) appScroll).2.1 rfl (by decide)⟩

/-! ## C8: the apps-context feature flag -/

/-- Counterexample to claim C8: a manifest that lies in an apps directory
context but contains a `[workspace]` table takes the workspace branch of
`update_dependencies` and receives the unflagged `risc0-steel` rewrite, so
an apps-context manifest does not always get the extra feature flag. -/
theorem c8_apps_flag_counterexample :
    hasSubstr cexAppsPath "/apps/" = true ∧
    rewriteManifest cexAppsPath cexWsContent =
      "[workspace]\n[workspace.dependencies]\n" ++ steelRepl ∧
    hasSubstr (rewriteManifest cexAppsPath cexWsContent) "features" = false := by
  refine ⟨rfl, rfl, rfl⟩

/-- Claim C8 as amended: among manifests without a `[workspace]` table, the
`risc0-steel` declaration is rewritten with the extra `features = ["host"]`
flag exactly when the manifest path contains "/apps/", and to the unflagged
form otherwise; workspace manifests receive the unflagged form regardless of
their path. -/
theorem c8_apps_flag_amended (path : String) :
    hasSubstr cexPlainContent "[workspace]" = false ∧
    rewriteManifest path cexPlainContent =
      "[package]\n" ++ (if hasSubstr path "/apps/" then steelReplHost else steelRepl) ∧
    rewriteManifest path cexWsContent =
      "[workspace]\n[workspace.dependencies]\n" ++ steelRepl := by
  refine ⟨rfl, ?_, ?_⟩
  · unfold rewriteManifest
    by_cases h : hasSubstr path "/apps/" <;> simp only [h] <;> rfl
  · unfold rewriteManifest
    by_cases h : hasSubstr path "/apps/" <;> simp only [h] <;> rfl

/-! ## C4: background service start ordering -/

/-- Claim C4: starting the background service performs, in order, the
best-effort broad kill of leftover same-named processes, the spawn of the
new process (output discarded), the fixed startup delay, and then a single
(hence boundedly retried) readiness probe; a passing probe advances the
phase machine to the run-test phase and a failing one produces the
not-ready error. -/
theorem c4_start_anvil_order (w : World) (a : App) (env : PEnv)
    (te : TestEnvironment)
    (hs : a.state = AppState.Testing E2ETestStep.StartingAnvil)
    (hte : a.test_env = some te) :
    ((handle_test_step w a env).effs =
      if w.anvilSpawnOk then
        [Eff.pkill "anvil", Eff.spawnProc "anvil", Eff.sleepMs 2000,
         Eff.curlCheck "http://localhost:8545"]
      else
        [Eff.pkill "anvil", Eff.spawnProc "anvil"]) ∧
    (w.anvilSpawnOk = true → w.curlOk = true →
      (handle_test_step w a env).err = none ∧
      (handle_test_step w a env).app.state = AppState.Testing E2ETestStep.RunningTest) ∧
    (w.anvilSpawnOk = true → w.curlOk = false →
      (handle_test_step w a env).err = some anvilNotReadyMsg ∧
      (handle_test_step w a env).app.state = AppState.Testing E2ETestStep.StartingAnvil) ∧
    (w.anvilSpawnOk = false →
      (handle_test_step w a env).err = some "spawn failed") := by
  refine ⟨?_, ?_, ?_, ?_⟩
  · by_cases h1 : w.anvilSpawnOk <;> by_cases h2 : w.curlOk <;>
      simp [handle_test_step, hs, hte, h1, h2]
  · intro h1 h2
    simp [handle_test_step, hs, hte, h1, h2]
  · intro h1 h2
    simp [handle_test_step, hs, hte, h1, h2]
  · intro h1
    simp [handle_test_step, hs, hte, h1]

/-- Concrete instantiation of `c4_start_anvil_order` under the
all-succeeding oracle: the effect order holds and the phase advances. -/
theorem c4_start_anvil_order_witness :
    (handle_test_step wAll
      { newApp with state := AppState.Testing E2ETestStep.StartingAnvil,
                    test_env := some teK } emptyEnv).effs =
      [Eff.pkill "anvil", Eff.spawnProc "anvil", Eff.sleepMs 2000,
       Eff.curlCheck "http://localhost:8545"] ∧
    (handle_test_step wAll
      { newApp with state := AppState.Testing E2ETestStep.StartingAnvil,
                    test_env := some teK } emptyEnv).app.state =
      AppState.Testing E2ETestStep.RunningTest := by
  have h := c4_start_anvil_order wAll
    { newApp with state := AppState.Testing E2ETestStep.StartingAnvil,
                  test_env := some teK } emptyEnv teK rfl rfl
  exact ⟨by simpa using h.1, (h.2.1 rfl rfl).2⟩

/-! ## Exit absorption -/

theorem sysTick_exited (w : World) (k : Option KeyEvent) (s : Sys) (n : Nat)
    (h : s.mode = RunMode.exited n) :
    sysTick w k s = (s, [], noObs) := by
  simp [sysTick, h]

theorem runSys_exited (w : World) (s : Sys) (n : Nat)
    (h : s.mode = RunMode.exited n) :
    ∀ keys, (runSys w s keys).1 = s ∧ (runSys w s keys).2.1 = [] := by
  intro keys
  induction keys with
  | nil => simp [runSys]
  | cons k ks ih =>
      simp [runSys, sysTick_exited w k s n h]
      exact ih

/-! ## C9: the overwrite-confirmation flow -/

/-- Claim C9: submitting a project name that collides with an existing
directory moves the wizard from the name prompt to the overwrite
confirmation; from there, confirming overwrite enters pipeline step 0 whose
action removes the existing directory before the clone command runs; and
choosing exit quits the loop with the process exiting cleanly and no
filesystem effect happening on that tick or ever after. -/
theorem c9_overwrite_flow (w : World) (a1 a2 a3 : App) (s : Sys)
    (keys : List (Option KeyEvent)) :
    (a1.state = AppState.EnteringProjectName → a1.project_name = "demo" →
      w.dirExists "demo" = true →
      (handle_key_event w (press KeyCode.Enter) a1).1 = false ∧
      (handle_key_event w (press KeyCode.Enter) a1).2.state = AppState.ConfirmOverwrite) ∧
    (a2.state = AppState.ConfirmOverwrite → a2.confirm_menu_item = 1 →
      (handle_key_event w (press KeyCode.Enter) a2).1 = false ∧
      (handle_key_event w (press KeyCode.Enter) a2).2.state =
        AppState.Installing InstallStep.CloningRepo) ∧
    (a3.project_name = "demo" → w.dirExists "demo" = true →
      w.removeDirOk "demo" = true →
      (clone_repository w a3).effs =
        [Eff.removeDirAll "demo", Eff.runCmd "git" (cloneArgs "demo")]) ∧
    (s.mode = RunMode.running → s.app.state = AppState.ConfirmOverwrite →
      s.app.confirm_menu_item = 2 →
      (sysTick w (some (press KeyCode.Enter)) s).1.mode = RunMode.exited 0 ∧
      (sysTick w (some (press KeyCode.Enter)) s).2.1 = [] ∧
      (runSys w (sysTick w (some (press KeyCode.Enter)) s).1 keys).2.1 = []) := by
  refine ⟨?_, ?_, ?_, ?_⟩
  · intro h1 h2 h3
    constructor <;> simp [handle_key_event, keyStateBranch, press, scrollHandle, h1, h2, h3]
  · intro h1 h2
    constructor <;> simp [handle_key_event, keyStateBranch, press, scrollHandle, h1, h2]
  · intro h1 h2 h3
    unfold clone_repository run_command
    by_cases h4 : w.spawnOkCmd "git" (cloneArgs "demo") <;>
      by_cases h5 : w.cmdOk "git" (cloneArgs "demo") <;>
        simp [h1, h2, h3, h4, h5]
  · intro h1 h2 h3
    have hk : handle_key_event w (press KeyCode.Enter) s.app = (true, s.app) := by
      simp [handle_key_event, keyStateBranch, press, h2, h3]
    have ht : sysTick w (some (press KeyCode.Enter)) s =
        ({ s with mode := RunMode.exited 0 }, [], noObs) := by
      simp [sysTick, h1, hk]
    refine ⟨by simp [ht], by simp [ht], ?_⟩
    rw [ht]
    exact (runSys_exited w { s with mode := RunMode.exited 0 } 0 rfl keys).2

/-- Concrete instantiation of `c9_overwrite_flow`: name "demo" collides
under an oracle where the directory exists, the overwrite choice enters
step 0 removing the directory before the clone, and the exit choice quits
with no effects. -/
theorem c9_overwrite_flow_witness :
    (handle_key_event wAll (press KeyCode.Enter)
        { newApp with state := AppState.EnteringProjectName,
                      project_name := "demo" }).2.state = AppState.ConfirmOverwrite ∧
    (handle_key_event wAll (press KeyCode.Enter)
        { newApp with state := AppState.ConfirmOverwrite, project_name := "demo",
                      confirm_menu_item := 1 }).2.state =
      AppState.Installing InstallStep.CloningRepo ∧
    (clone_repository wAll
        { newApp with state := AppState.Installing InstallStep.CloningRepo,
                      project_name := "demo" }).effs =
      [Eff.removeDirAll "demo", Eff.runCmd "git" (cloneArgs "demo")] ∧
    (sysTick wAll (some (press KeyCode.Enter))
        { app := { newApp with state := AppState.ConfirmOverwrite,
                               project_name := "demo", confirm_menu_item := 2 },
          env := emptyEnv, mode := RunMode.running }).1.mode = RunMode.exited 0 ∧
    (sysTick wAll (some (press KeyCode.Enter))
        { app := { newApp with state := AppState.ConfirmOverwrite,
                               project_name := "demo", confirm_menu_item := 2 },
          env := emptyEnv, mode := RunMode.running }).2.1 = [] := by
  have h := c9_overwrite_flow wAll
    { newApp with state := AppState.EnteringProjectName, project_name := "demo" }
    { newApp with state := AppState.ConfirmOverwrite, project_name := "demo",
                  confirm_menu_item := 1 }
    { newApp with state := AppState.Installing InstallStep.CloningRepo,
                  project_name := "demo" }
    { app := { newApp with state := AppState.ConfirmOverwrite,
                           project_name := "demo", confirm_menu_item := 2 },
      env := emptyEnv, mode := RunMode.running }
    []
  exact ⟨(h.1 rfl rfl rfl).2, (h.2.1 rfl rfl).2, h.2.2.1 rfl rfl rfl,
         (h.2.2.2 rfl rfl rfl).1, (h.2.2.2 rfl rfl rfl).2.1⟩

/-! ## C6: test variables leak into the parent environment -/

/-- Claim C6 fails on the code: the test phases inject the named variables
with `std::env::set_var`, which mutates the parent process environment, and
nothing ever unsets them; after a complete test-run invocation has returned
to the test menu, the wallet private key and the credential are still
present in the parent environment (and are therefore inherited by every
later child process, not only the validation script). -/
theorem c6_env_persists_after_test_run :
    (runSys wAll sysTestStart [none, none, none, none]).1.app.state =
      AppState.TestMenu ∧
    (runSys wAll sysTestStart [none, none, none, none]).1.env
        "ETH_WALLET_PRIVATE_KEY" =
      some "0xac0974bec39a17e36ba4a6b4d238ff944bacb478cbed5efcae784d7bf4f2ff80" ∧
    (runSys wAll sysTestStart [none, none, none, none]).1.env "BONSAI_API_KEY" =
      some "k" ∧
    (runSys wAll sysTestStart [none, none, none, none]).1.env "ETH_RPC_URL" =
      some "http://localhost:8545" := by
  refine ⟨rfl, rfl, rfl, rfl⟩

/-! ## Scroll handling and inert key events -/

@[simp]
theorem scrollHandle_state (k : KeyEvent) (a : App) :
    (scrollHandle k a).state = a.state := by
  unfold scrollHandle
  split <;> (try split) <;> rfl

@[simp]
theorem scrollHandle_project_name (k : KeyEvent) (a : App) :
    (scrollHandle k a).project_name = a.project_name := by
  unfold scrollHandle
  split <;> (try split) <;> rfl

@[simp]
theorem scrollHandle_test_env (k : KeyEvent) (a : App) :
    (scrollHandle k a).test_env = a.test_env := by
  unfold scrollHandle
  split <;> (try split) <;> rfl

@[simp]
theorem scrollHandle_command_output (k : KeyEvent) (a : App) :
    (scrollHandle k a).command_output = a.command_output := by
  unfold scrollHandle
  split <;> (try split) <;> rfl

theorem keyStateBranch_installing (w : World) (ke : KeyEvent) (a : App)
    (i : InstallStep) (h : a.state = AppState.Installing i) :
    keyStateBranch w ke a = (false, a) := by
  rcases a with ⟨st, pn, sm, ri, fi, rv, co, os, pr, smi, cmi, te, bk⟩
  simp only at h
  subst h
  rfl

theorem keyStateBranch_testing (w : World) (ke : KeyEvent) (a : App)
    (p : E2ETestStep) (h : a.state = AppState.Testing p) :
    keyStateBranch w ke a = (false, a) := by
  rcases a with ⟨st, pn, sm, ri, fi, rv, co, os, pr, smi, cmi, te, bk⟩
  simp only at h
  subst h
  rfl

theorem hke_inert_fields (w : World) (ke : KeyEvent) (a : App)
    (h : keyStateBranch w ke a = (false, a)) :
    (handle_key_event w ke a).1 = false ∧
    (handle_key_event w ke a).2.state = a.state ∧
    (handle_key_event w ke a).2.project_name = a.project_name ∧
    (handle_key_event w ke a).2.test_env = a.test_env ∧
    (handle_key_event w ke a).2.command_output = a.command_output := by
  by_cases hk : ke.kind = KeyEventKind.Press
  · simp [handle_key_event, hk, h]
  · simp [handle_key_event, hk]


/-! ## Command-sequence lemmas -/

theorem cmdSeq_err (w : World) (l : List (String × List String × String)) :
    ∀ a : App, (cmdSeq w a l).1 = seqErr w l := by
  induction l with
  | nil => intro a; rfl
  | cons c rest ih =>
      intro a
      rcases c with ⟨cmd, args, d⟩
      unfold cmdSeq seqErr
      have hre := run_command_err w a cmd args d
      by_cases h1 : w.spawnOkCmd cmd args <;> by_cases h2 : w.cmdOk cmd args <;>
        simp [h1, h2] at hre <;> simp [h1, h2, hre, ih]

theorem cmdSeq_state (w : World) (l : List (String × List String × String)) :
    ∀ a : App, (cmdSeq w a l).2.1.state = a.state := by
  induction l with
  | nil => intro a; rfl
  | cons c rest ih =>
      intro a
      rcases c with ⟨cmd, args, d⟩
      unfold cmdSeq
      rcases he : (run_command w a cmd args d).err with _ | e <;> simp [he, ih]

theorem cmdSeq_project_name (w : World) (l : List (String × List String × String)) :
    ∀ a : App, (cmdSeq w a l).2.1.project_name = a.project_name := by
  induction l with
  | nil => intro a; rfl
  | cons c rest ih =>
      intro a
      rcases c with ⟨cmd, args, d⟩
      unfold cmdSeq
      rcases he : (run_command w a cmd args d).err with _ | e <;> simp [he, ih]

theorem cmdSeq_test_env (w : World) (l : List (String × List String × String)) :
    ∀ a : App, (cmdSeq w a l).2.1.test_env = a.test_env := by
  induction l with
  | nil => intro a; rfl
  | cons c rest ih =>
      intro a
      rcases c with ⟨cmd, args, d⟩
      unfold cmdSeq
      rcases he : (run_command w a cmd args d).err with _ | e <;> simp [he, ih]

/-! ## The safe (post-installation) region is closed -/

theorem runTestPhase_state (w : World) (a : App) (env : PEnv) :
    (runTestPhase w a env).app.state = a.state ∨
    (runTestPhase w a env).app.state = AppState.Testing E2ETestStep.Cleanup := by
  unfold runTestPhase
  by_cases h1 : w.chdirOk workspaceRoot
  case neg => simp [h1]
  by_cases h2 : w.chdirOk a.project_name
  case neg => simp [h1, h2]
  simp only [h1, h2, add_output_project_name, if_true, ite_true]
  rw [cmdSeq_err]
  rcases h3 : seqErr w testPrepCmds with _ | e <;> simp only [h3]
  · rcases h4 : (run_command w (cmdSeq w (add_output { a with
        status_message := "Running end-to-end test..." }
        ("Changing to project directory: " ++ a.project_name)) testPrepCmds).2.1
        "bash" ["e2e-test.sh"] "Running end-to-end test script...").err with _ | e4 <;>
      simp [h4, cmdSeq_state]
  · simp [cmdSeq_state]

theorem handle_test_step_state (w : World) (a : App) (env : PEnv) :
    (handle_test_step w a env).app.state = a.state ∨
    (handle_test_step w a env).app.state = AppState.TestMenu ∨
    ∃ q, (handle_test_step w a env).app.state = AppState.Testing q := by
  unfold handle_test_step
  rcases hte : a.test_env with _ | te
  · simp
  · rcases hst : a.state with _ | _ | _ | i | _ | _ | _ | p | _ <;> simp [hst]
    cases p
    · right; right; exact ⟨_, rfl⟩
    · by_cases h1 : w.anvilSpawnOk <;> by_cases h2 : w.curlOk <;>
        simp [h1, h2, hst]
    · rcases runTestPhase_state w a env with h | h
      · left; exact h.trans hst
      · right; right; exact ⟨_, h⟩
    · right; left; rfl

theorem keySafe (w : World) (ke : KeyEvent) (a : App)
    (h : SafeState a.state = true) :
    (handle_key_event w ke a).1 = true ∨
    SafeState (handle_key_event w ke a).2.state = true := by
  by_cases hk : ke.kind = KeyEventKind.Press
  · rcases a with ⟨st, pn, sm, ri, fi, rv, co, os, pr, smi, cmi, te, bk⟩
    simp only [SafeState] at h
    cases st <;> simp_all [SafeState] <;>
      cases hc : ke.code <;>
        simp [handle_key_event, keyStateBranch, hk, hc, SafeState] <;>
          (repeat' split) <;> simp_all [SafeState]
  · right
    simpa [handle_key_event, hk] using h

theorem workSafe (w : World) (s : Sys) (_hm : s.mode = RunMode.running)
    (hsafe : SafeState s.app.state = true) :
    SafeSys (stateWork w s).1 ∧ ((stateWork w s).2.2).ranStep = none := by
  rcases hst : s.app.state with _ | _ | _ | i | _ | _ | _ | p | _ <;>
    simp [SafeState, hst] at hsafe <;> unfold stateWork <;> rw [hst]
  · exact ⟨Or.inr (by simp [hst, SafeState]), rfl⟩
  · exact ⟨Or.inr (by simp [hst, SafeState]), rfl⟩
  · exact ⟨Or.inr (by simp [hst, SafeState]), rfl⟩
  · rcases he : (handle_test_step w s.app s.env).err with _ | e <;> simp [he]
    · rcases handle_test_step_state w s.app s.env with h | h | ⟨q, h⟩
      · exact Or.inr (by simp [h, hst, SafeState])
      · exact Or.inr (by simp [h, SafeState])
      · exact Or.inr (by simp [h, SafeState])
    · exact Or.inr (by simp [SafeState])
  · exact ⟨Or.inl (by simp), rfl⟩

theorem safe_tick (w : World) (k : Option KeyEvent) (s : Sys) (h : SafeSys s) :
    SafeSys (sysTick w k s).1 ∧ ((sysTick w k s).2.2).ranStep = none := by
  rcases s with ⟨sa, se, sm⟩
  rcases sm with _ | _ | n
  · have hsafe : SafeState sa.state = true := by
      rcases h with h | h
      · simp [SafeSys] at h
      · exact h
    rcases k with _ | ke
    · simpa [sysTick] using workSafe w ⟨sa, se, RunMode.running⟩ rfl hsafe
    · rcases hke : handle_key_event w ke sa with ⟨quit, a1⟩
      rcases keySafe w ke sa hsafe with hq | hs2
      · rw [hke] at hq
        simp only at hq
        subst hq
        simp [sysTick, hke, SafeSys, noObs]
      · rw [hke] at hs2
        simp only at hs2
        rcases quit with _ | _
        · have hw := workSafe w ⟨a1, se, RunMode.running⟩ rfl hs2
          simpa [sysTick, hke] using hw
        · simp [sysTick, hke, SafeSys, noObs]
  · unfold sysTick
    by_cases he : isEscEvent k = true <;> simp [he, SafeSys, noObs]
  · rw [sysTick_exited w k ⟨sa, se, RunMode.exited n⟩ n rfl]
    exact ⟨h, rfl⟩

theorem safeRun (w : World) :
    ∀ (keys : List (Option KeyEvent)) (s : Sys), SafeSys s →
      execSteps (runSys w s keys).2.2 = [] := by
  intro keys
  induction keys with
  | nil => intro s h; simp [runSys, execSteps]
  | cons k ks ih =>
      intro s h
      have ht := safe_tick w k s h
      simp only [runSys, execSteps, List.filterMap_cons]
      rw [ht.2]
      exact ih (sysTick w k s).1 ht.1

/-! ## Step-action success characterizations -/

theorem removeRootFiles_err (w : World) (l : List DirEntry) :
    (removeRootFiles w l).1 =
      (if l.all (fun e => !e.isFile || w.removeFileOk ("./" ++ e.name)) then none
       else some "remove_file failed") := by
  induction l with
  | nil => rfl
  | cons e rest ih =>
      unfold removeRootFiles
      by_cases h1 : e.isFile <;> by_cases h2 : w.removeFileOk ("./" ++ e.name) <;>
        simp [h1, h2, ih]

theorem moveCounterEntries_err (w : World) (l : List DirEntry) :
    (moveCounterEntries w l).1 =
      (if l.all (fun e => w.renameOk ("erc20-counter/" ++ e.name) ("./" ++ e.name))
       then none else some "rename failed") := by
  induction l with
  | nil => rfl
  | cons e rest ih =>
      unfold moveCounterEntries
      by_cases h1 : w.renameOk ("erc20-counter/" ++ e.name) ("./" ++ e.name) <;>
        simp [h1, ih]

theorem updateFilesLoop_err_isNone (w : World) (l : List String) :
    ∀ a : App, (updateFilesLoop w a l).1.isNone =
      l.all (fun p => w.readFileOk p && w.writeOk p) := by
  induction l with
  | nil => intro a; rfl
  | cons p rest ih =>
      intro a
      unfold updateFilesLoop
      by_cases h1 : w.readFileOk p <;> by_cases h2 : w.writeOk p <;>
        simp [h1, h2, ih]

theorem updateFilesLoop_project_name (w : World) (l : List String) :
    ∀ a : App, (updateFilesLoop w a l).2.1.project_name = a.project_name := by
  induction l with
  | nil => intro a; rfl
  | cons p rest ih =>
      intro a
      unfold updateFilesLoop
      by_cases h1 : w.readFileOk p <;> by_cases h2 : w.writeOk p <;>
        simp [h1, h2, ih, add_output]

theorem forgeCmdLoop_err_isNone (w : World)
    (l : List (String × List String × String)) :
    ∀ (a : App) (i : Nat), (forgeCmdLoop w a i l).1.isNone =
      l.all (fun c => run_ok w c.1 c.2.1) := by
  induction l with
  | nil => intro a i; rfl
  | cons c rest ih =>
      intro a i
      rcases c with ⟨cmd, args, d⟩
      unfold forgeCmdLoop
      have hre := run_command_err w ((forgePreLog i).foldl add_output a) cmd args d
      by_cases h1 : w.spawnOkCmd cmd args <;> by_cases h2 : w.cmdOk cmd args <;>
        simp [h1, h2] at hre <;> simp [h1, h2, hre, ih, run_ok]

theorem forgeCmdLoop_project_name (w : World)
    (l : List (String × List String × String)) :
    ∀ (a : App) (i : Nat), (forgeCmdLoop w a i l).2.1.project_name = a.project_name := by
  induction l with
  | nil => intro a i; rfl
  | cons c rest ih =>
      intro a i
      rcases c with ⟨cmd, args, d⟩
      unfold forgeCmdLoop
      rcases he : (run_command w ((forgePreLog i).foldl add_output a) cmd args d).err
          with _ | e <;> simp [he, ih]

theorem forgeRemappings_err (w : World) (a : App) :
    (forgeRemappings w a).err =
      (if w.dirExists "remappings.txt" then
        (if w.readFileOk "remappings.txt" then
          (if w.writeOk "remappings.txt" then none else some "write failed")
         else some "read_to_string failed")
       else none) := by
  unfold forgeRemappings
  by_cases h1 : w.dirExists "remappings.txt" <;>
    by_cases h2 : w.readFileOk "remappings.txt" <;>
      by_cases h3 : w.writeOk "remappings.txt" <;> simp [h1, h2, h3]

theorem forgeRemappings_project_name (w : World) (a : App) :
    (forgeRemappings w a).app.project_name = a.project_name := by
  unfold forgeRemappings
  by_cases h1 : w.dirExists "remappings.txt" <;>
    by_cases h2 : w.readFileOk "remappings.txt" <;>
      by_cases h3 : w.writeOk "remappings.txt" <;> simp [h1, h2, h3]

theorem forgeFoundryToml_err (w : World) (a : App) :
    (forgeFoundryToml w a).err =
      (if w.dirExists "foundry.toml" then
        (if w.readFileOk "foundry.toml" then
          (if w.writeOk "foundry.toml" then none else some "write failed")
         else some "read_to_string failed")
       else none) := by
  unfold forgeFoundryToml
  by_cases h1 : w.dirExists "foundry.toml" <;>
    by_cases h2 : w.readFileOk "foundry.toml" <;>
      by_cases h3 : w.writeOk "foundry.toml" <;> simp [h1, h2, h3]

theorem forgeFoundryToml_project_name (w : World) (a : App) :
    (forgeFoundryToml w a).app.project_name = a.project_name := by
  unfold forgeFoundryToml
  by_cases h1 : w.dirExists "foundry.toml" <;>
    by_cases h2 : w.readFileOk "foundry.toml" <;>
      by_cases h3 : w.writeOk "foundry.toml" <;> simp [h1, h2, h3]

theorem clone_repository_err_isNone (w : World) (a : App) :
    (clone_repository w a).err.isNone = stepOk w a.project_name InstallStep.CloningRepo := by
  unfold clone_repository stepOk
  by_cases h1 : w.dirExists a.project_name <;>
    by_cases h2 : w.removeDirOk a.project_name <;>
      by_cases h3 : w.spawnOkCmd "git" (cloneArgs a.project_name) <;>
        by_cases h4 : w.cmdOk "git" (cloneArgs a.project_name) <;>
          simp [h1, h2, h3, h4, run_command_err, run_ok]

theorem clone_repository_project_name (w : World) (a : App) :
    (clone_repository w a).app.project_name = a.project_name := by
  unfold clone_repository
  by_cases h1 : w.dirExists a.project_name <;>
    by_cases h2 : w.removeDirOk a.project_name <;> simp [h1, h2]

theorem setup_sparse_checkout_err_isNone (w : World) (a : App) :
    (setup_sparse_checkout w a).err.isNone =
      stepOk w a.project_name InstallStep.SettingUpSparse := by
  unfold setup_sparse_checkout stepOk
  by_cases h1 : w.chdirOk a.project_name <;>
    by_cases h2 : w.spawnOkCmd "git" ["sparse-checkout", "set", "examples/erc20-counter"] <;>
      by_cases h3 : w.cmdOk "git" ["sparse-checkout", "set", "examples/erc20-counter"] <;>
        by_cases h4 : w.spawnOkCmd "git" ["checkout"] <;>
          by_cases h5 : w.cmdOk "git" ["checkout"] <;>
            by_cases h6 : w.dirExists "examples/erc20-counter" <;>
              simp [h1, h2, h3, h4, h5, h6, run_command_err, run_ok]

theorem setup_sparse_checkout_project_name (w : World) (a : App) :
    (setup_sparse_checkout w a).app.project_name = a.project_name := by
  unfold setup_sparse_checkout
  by_cases h1 : w.chdirOk a.project_name <;> simp [h1]
  rcases e1 : (run_command w a "git" ["sparse-checkout", "set", "examples/erc20-counter"]
      "Setting up sparse checkout...").err with _ | m1 <;> simp [e1]
  rcases e2 : (run_command w (run_command w a "git"
      ["sparse-checkout", "set", "examples/erc20-counter"]
      "Setting up sparse checkout...").app "git" ["checkout"]
      "Checking out files...").err with _ | m2 <;> simp [e2]
  by_cases h6 : w.dirExists "examples/erc20-counter" <;> simp [h6]

theorem move_files_err_isNone (w : World) (a : App) :
    (move_files w a).err.isNone = stepOk w a.project_name InstallStep.MovingFiles := by
  unfold move_files stepOk
  by_cases h1 : w.renameOk "examples/erc20-counter" "./erc20-counter" <;>
    by_cases h2 : w.removeDirOk "examples" <;>
      by_cases h3 : w.readDirOk "." <;>
        by_cases h4 : (w.readDir ".").all
            (fun e => !e.isFile || w.removeFileOk ("./" ++ e.name)) <;>
          by_cases h5 : w.readDirOk "erc20-counter" <;>
            by_cases h6 : (w.readDir "erc20-counter").all
                (fun e => w.renameOk ("erc20-counter/" ++ e.name) ("./" ++ e.name)) <;>
              by_cases h7 : w.removeEmptyDirOk "erc20-counter" <;>
                simp [h1, h2, h3, h4, h5, h6, h7,
                      removeRootFiles_err, moveCounterEntries_err]

theorem move_files_project_name (w : World) (a : App) :
    (move_files w a).app.project_name = a.project_name := by
  unfold move_files
  by_cases h1 : w.renameOk "examples/erc20-counter" "./erc20-counter" <;>
    by_cases h2 : w.removeDirOk "examples" <;>
      by_cases h3 : w.readDirOk "." <;>
        by_cases h5 : w.readDirOk "erc20-counter" <;>
          by_cases h7 : w.removeEmptyDirOk "erc20-counter" <;>
            rcases e4 : (removeRootFiles w (w.readDir ".")).1 with _ | m4 <;>
              rcases e6 : (moveCounterEntries w (w.readDir "erc20-counter")).1 with _ | m6 <;>
                simp [h1, h2, h3, h5, h7, e4, e6]

theorem update_dependencies_err_isNone (w : World) (a : App) :
    (update_dependencies w a).err.isNone =
      stepOk w a.project_name InstallStep.UpdatingDependencies := by
  unfold update_dependencies stepOk
  rcases hf : (find_cargo_toml_files w w.fsDepth ".").1 with _ | e <;> simp [hf]
  have hu := updateFilesLoop_err_isNone w (find_cargo_toml_files w w.fsDepth ".").2
    (add_output a "Updating Cargo.toml files with git dependencies...")
  rcases he : (updateFilesLoop w
      (add_output a "Updating Cargo.toml files with git dependencies...")
      (find_cargo_toml_files w w.fsDepth ".").2).1 with _ | e <;>
    rw [he] at hu <;> simp at hu ⊢ <;> exact hu

theorem update_dependencies_project_name (w : World) (a : App) :
    (update_dependencies w a).app.project_name = a.project_name := by
  unfold update_dependencies
  rcases hf : (find_cargo_toml_files w w.fsDepth ".").1 with _ | e <;> simp [hf]
  rcases he : (updateFilesLoop w
      (add_output a "Updating Cargo.toml files with git dependencies...")
      (find_cargo_toml_files w w.fsDepth ".").2).1 with _ | e <;> simp [he] <;>
    have hp := updateFilesLoop_project_name w (find_cargo_toml_files w w.fsDepth ".").2
      (add_output a "Updating Cargo.toml files with git dependencies...") <;>
    simp [he] at hp ⊢ <;> simp [hp]

theorem seqErr_isNone (w : World) (l : List (String × List String × String)) :
    (seqErr w l).isNone = l.all (fun c => run_ok w c.1 c.2.1) := by
  induction l with
  | nil => rfl
  | cons c rest ih =>
      rcases c with ⟨cmd, args, d⟩
      unfold seqErr
      by_cases h1 : w.spawnOkCmd cmd args <;> by_cases h2 : w.cmdOk cmd args <;>
        simp [h1, h2, ih, run_ok]

theorem forgeCmdLoop_err (w : World) (l : List (String × List String × String)) :
    ∀ (a : App) (i : Nat), (forgeCmdLoop w a i l).1 = seqErr w l := by
  induction l with
  | nil => intro a i; rfl
  | cons c rest ih =>
      intro a i
      rcases c with ⟨cmd, args, d⟩
      unfold forgeCmdLoop seqErr
      have hre := run_command_err w ((forgePreLog i).foldl add_output a) cmd args d
      by_cases h1 : w.spawnOkCmd cmd args <;> by_cases h2 : w.cmdOk cmd args <;>
        simp [h1, h2] at hre <;> simp [h1, h2, hre, ih]

theorem setup_forge_err_isNone (w : World) (a : App) :
    (setup_forge w a).err.isNone = stepOk w a.project_name InstallStep.SettingUpForge := by
  simp only [setup_forge, stepOk]
  rw [run_command_err, forgeCmdLoop_err, forgeRemappings_err, forgeFoundryToml_err]
  have hall := seqErr_isNone w (forgeCmds.drop 1)
  rw [List.drop_one] at hall
  by_cases s0 : w.spawnOkCmd "git" ["init"] <;> by_cases c0 : w.cmdOk "git" ["init"] <;>
    simp only [s0, c0, if_true, if_false, ite_true, ite_false] <;>
      try simp [run_ok, s0, c0]
  by_cases cd : w.createDirOk "lib"
  case neg => simp [cd, run_ok, s0, c0]
  simp only [cd, if_true, ite_true]
  rcases hs : seqErr w forgeCmds.tail with _ | es <;> rw [hs] at hall
  case pos.some =>
    simp only [Option.isNone_some] at hall
    simp only [run_ok] at hall
    simp [hs, ← hall]
  case pos.none =>
    simp only [Option.isNone_none] at hall
    simp only [run_ok] at hall
    simp only [hs, hall.symm, Bool.true_and]
    by_cases d1 : w.dirExists "remappings.txt" <;>
      by_cases r1 : w.readFileOk "remappings.txt" <;>
        by_cases w1 : w.writeOk "remappings.txt" <;>
          simp only [d1, r1, w1, if_true, if_false, ite_true, ite_false] <;>
            try simp [d1, r1, w1]
    all_goals
      by_cases d2 : w.dirExists "foundry.toml" <;>
        by_cases r2 : w.readFileOk "foundry.toml" <;>
          by_cases w2 : w.writeOk "foundry.toml" <;>
            simp [d2, r2, w2, d1, r1, w1]

theorem setup_forge_project_name (w : World) (a : App) :
    (setup_forge w a).app.project_name = a.project_name := by
  simp only [setup_forge]
  rcases h0 : (run_command w
      (add_output a "Starting Forge setup (this may take a few minutes)...")
      "git" ["init"] "Initializing git repository...").err with _ | e0 <;>
    simp only [h0] <;> try simp
  by_cases cd : w.createDirOk "lib"
  case neg => simp [cd]
  simp only [cd, if_true, ite_true]
  rcases h1 : (forgeCmdLoop w
      (run_command w (add_output a "Starting Forge setup (this may take a few minutes)...")
        "git" ["init"] "Initializing git repository...").app 1 forgeCmds.tail).1
      with _ | e1 <;> simp only [h1] <;>
    try (simp [forgeCmdLoop_project_name])
  rcases h2 : (forgeRemappings w (forgeCmdLoop w
      (run_command w (add_output a "Starting Forge setup (this may take a few minutes)...")
        "git" ["init"] "Initializing git repository...").app 1 forgeCmds.tail).2.1).err
      with _ | e2 <;> simp only [h2] <;>
    try (simp [forgeRemappings_project_name, forgeCmdLoop_project_name])
  rcases h3 : (forgeFoundryToml w (forgeRemappings w (forgeCmdLoop w
      (run_command w (add_output a "Starting Forge setup (this may take a few minutes)...")
        "git" ["init"] "Initializing git repository...").app 1 forgeCmds.tail).2.1).app).err
      with _ | e3 <;> simp only [h3] <;>
    simp [forgeFoundryToml_project_name, forgeRemappings_project_name,
          forgeCmdLoop_project_name]

theorem stepAction_err_isNone (w : World) (i : InstallStep) (a : App) :
    (stepAction w i a).err.isNone = stepOk w a.project_name i := by
  cases i
  · exact clone_repository_err_isNone w a
  · exact setup_sparse_checkout_err_isNone w a
  · exact move_files_err_isNone w a
  · exact update_dependencies_err_isNone w a
  · exact setup_forge_err_isNone w a

theorem stepAction_project_name (w : World) (i : InstallStep) (a : App) :
    (stepAction w i a).app.project_name = a.project_name := by
  cases i
  · exact clone_repository_project_name w a
  · exact setup_sparse_checkout_project_name w a
  · exact move_files_project_name w a
  · exact update_dependencies_project_name w a
  · exact setup_forge_project_name w a

/-! ## Installation run lemmas -/

theorem runSys_cons (w : World) (s : Sys) (k : Option KeyEvent)
    (ks : List (Option KeyEvent)) :
    runSys w s (k :: ks) =
      ((runSys w (sysTick w k s).1 ks).1,
       (sysTick w k s).2.1 ++ (runSys w (sysTick w k s).1 ks).2.1,
       (sysTick w k s).2.2 :: (runSys w (sysTick w k s).1 ks).2.2) := rfl

theorem sysTick_running_none (w : World) (s : Sys)
    (hm : s.mode = RunMode.running) :
    sysTick w none s = stateWork w s := by
  rcases s with ⟨sa, se, sm⟩
  simp only at hm
  subst hm
  rfl

theorem sysTick_running_some (w : World) (s : Sys) (ke : KeyEvent) (a1 : App)
    (hm : s.mode = RunMode.running)
    (hq : handle_key_event w ke s.app = (false, a1)) :
    sysTick w (some ke) s = stateWork w { s with app := a1 } := by
  rcases s with ⟨sa, se, sm⟩
  simp only at hm hq
  subst hm
  simp [sysTick, hq]

theorem sw_installing (w : World) (s : Sys) (i : InstallStep)
    (hst : s.app.state = AppState.Installing i) :
    ((stateWork w s).2.2) = { ranStep := some i, ranPhase := none, cleaned := false } ∧
    (stateWork w s).1.app.project_name = s.app.project_name ∧
    (stateWork w s).2.1 = (stepAction w i s.app).effs ∧
    (stepOk w s.app.project_name i = true →
      (stateWork w s).1.mode = s.mode ∧
      (stateWork w s).1.app.state = nextAfter i) ∧
    (stepOk w s.app.project_name i = false →
      (stateWork w s).1.mode = RunMode.errorHalt) := by
  have hio := stepAction_err_isNone w i s.app
  unfold stateWork
  rcases he : (stepAction w i s.app).err with _ | e <;> rw [he] at hio <;>
    simp only [Option.isNone_some, Option.isNone_none] at hio <;>
    simp only [hst, he]
  · by_cases hf : i = InstallStep.SettingUpForge
    · subst hf
      simp [stepAction_project_name, ← hio]
    · simp [hf, stepAction_project_name, ← hio]
  · by_cases hf : i = InstallStep.SettingUpForge
    · subst hf
      simp [stepAction_project_name, ← hio]
    · simp [hf, stepAction_project_name, ← hio]

theorem idealFromStep_cons (w : World) (n : String) (i : InstallStep) :
    (i = InstallStep.SettingUpForge ∧ idealFromStep w n i = [i]) ∨
    (∃ j, nextAfter i = AppState.Installing j ∧
      idealFromStep w n i =
        i :: (if stepOk w n i then idealFromStep w n j else [])) := by
  cases i
  · exact Or.inr ⟨InstallStep.SettingUpSparse, rfl, rfl⟩
  · exact Or.inr ⟨InstallStep.MovingFiles, rfl, rfl⟩
  · exact Or.inr ⟨InstallStep.UpdatingDependencies, rfl, rfl⟩
  · exact Or.inr ⟨InstallStep.SettingUpForge, rfl, rfl⟩
  · exact Or.inl ⟨rfl, rfl⟩

theorem installRun (w : World) :
    ∀ (keys : List (Option KeyEvent)) (s : Sys) (i : InstallStep),
      s.mode = RunMode.running → s.app.state = AppState.Installing i →
      execSteps (runSys w s keys).2.2 =
        (idealFromStep w s.app.project_name i).take keys.length := by
  intro keys
  induction keys with
  | nil => intro s i hm hst; simp [runSys, execSteps]
  | cons k ks ih =>
      intro s i hm hst
      have hstep : ∃ a1 : App, sysTick w k s = stateWork w { s with app := a1 } ∧
          a1.state = s.app.state ∧ a1.project_name = s.app.project_name := by
        rcases k with _ | ke
        · refine ⟨s.app, ?_, rfl, rfl⟩
          rw [sysTick_running_none w s hm]
        · have hb := keyStateBranch_installing w ke s.app i hst
          have hf := hke_inert_fields w ke s.app hb
          have hpair : handle_key_event w ke s.app =
              (false, (handle_key_event w ke s.app).2) := by
            rcases hh : handle_key_event w ke s.app with ⟨q, a1⟩
            rw [hh] at hf
            simp only at hf
            rw [hf.1]
          exact ⟨(handle_key_event w ke s.app).2,
            sysTick_running_some w s ke _ hm hpair, hf.2.1.trans rfl, hf.2.2.1⟩
      rcases hstep with ⟨a1, htick, ha1st, ha1pn⟩
      have hst1 : ({ s with app := a1 } : Sys).app.state = AppState.Installing i := by
        simpa [ha1st] using hst
      have hsw := sw_installing w { s with app := a1 } i hst1
      rw [runSys_cons, htick]
      simp only [execSteps, List.filterMap_cons, hsw.1]
      by_cases hso : stepOk w s.app.project_name i = true
      · have hok := hsw.2.2.2.1 (by simpa [ha1pn] using hso)
        rcases idealFromStep_cons w s.app.project_name i with ⟨hf, hi⟩ | ⟨j, hn, hi⟩
        · subst hf
          have hsafe : SafeSys (stateWork w { s with app := a1 }).1 :=
            Or.inr (by rw [hok.2]; rfl)
          have hsr := safeRun w ks _ hsafe
          simp only [execSteps] at hsr
          rw [hsr, hi]
          simp
        · have hst2 : (stateWork w { s with app := a1 }).1.app.state =
              AppState.Installing j := by rw [hok.2, hn]
          have hrest := ih (stateWork w { s with app := a1 }).1 j
            (hok.1.trans hm) hst2
          simp only [execSteps] at hrest
          have hpn2 : (stateWork w { s with app := a1 }).1.app.project_name =
              s.app.project_name := hsw.2.1.trans ha1pn
          rw [hrest, hpn2, hi]
          simp [hso, List.take_succ_cons]
      · have hso2 : stepOk w s.app.project_name i = false := by simpa using hso
        have hnm := hsw.2.2.2.2 (by simpa [ha1pn] using hso2)
        have hsafe : SafeSys (stateWork w { s with app := a1 }).1 :=
          Or.inl (by rw [hnm]; simp)
        have hsr := safeRun w ks _ hsafe
        simp only [execSteps] at hsr
        rw [hsr]
        rcases idealFromStep_cons w s.app.project_name i with ⟨hf, hi⟩ | ⟨j, hn, hi⟩ <;>
          rw [hi] <;> simp [hso2]

theorem idealFromStep_eq_take (w : World) (n : String) :
    idealFromStep w n InstallStep.CloningRepo = installOrder.take (execCount w n) := by
  unfold idealFromStep installOrder execCount succPrefix
  by_cases h1 : stepOk w n InstallStep.CloningRepo <;>
    by_cases h2 : stepOk w n InstallStep.SettingUpSparse <;>
      by_cases h3 : stepOk w n InstallStep.MovingFiles <;>
        by_cases h4 : stepOk w n InstallStep.UpdatingDependencies <;>
          by_cases h5 : stepOk w n InstallStep.SettingUpForge <;>
            simp [h1, h2, h3, h4, h5]

theorem gating_all_take (w : World) (n : String) :
    (installOrder.take (execCount w n - 1)).all (fun st => stepOk w n st) = true := by
  unfold installOrder execCount succPrefix
  by_cases h1 : stepOk w n InstallStep.CloningRepo <;>
    by_cases h2 : stepOk w n InstallStep.SettingUpSparse <;>
      by_cases h3 : stepOk w n InstallStep.MovingFiles <;>
        by_cases h4 : stepOk w n InstallStep.UpdatingDependencies <;>
          by_cases h5 : stepOk w n InstallStep.SettingUpForge <;>
            simp [h1, h2, h3, h4, h5]

/-! ## C1: the installation pipeline is sequential and failure-halting -/

/-- Claim C1: over any complete run of the loop from the start of the
installation, the executed step actions are exactly the declared order
truncated at the first failing step (so step k+1 runs only when step k
succeeded, and after a failure no later step action ever runs, however
long the run continues); every step before the last executed one had
succeeded; one tick at any installation step runs exactly that step's
action, advancing to the next step (or to the success screen after the
last) on success and entering the error display on failure; and the error
display executes no actions and leaves only through the Esc
acknowledgment, which exits the process with code 1. -/
theorem c1_install_pipeline (w : World) (name : String)
    (keys : List (Option KeyEvent)) (s t t2 : Sys) (i : InstallStep)
    (k : Option KeyEvent)
    (hm : s.mode = RunMode.running)
    (hs : s.app.state = AppState.Installing InstallStep.CloningRepo)
    (hn : s.app.project_name = name)
    (ht2m : t2.mode = RunMode.running)
    (ht2s : t2.app.state = AppState.Installing i)
    (htm : t.mode = RunMode.errorHalt) :
    execSteps (runSys w s keys).2.2 =
      installOrder.take (min keys.length (execCount w name)) ∧
    (installOrder.take (execCount w name - 1)).all (fun st => stepOk w name st) = true ∧
    ((sysTick w k t2).2.2).ranStep = some i ∧
    (stepOk w t2.app.project_name i = true →
      (sysTick w k t2).1.mode = RunMode.running ∧
      (sysTick w k t2).1.app.state = nextAfter i) ∧
    (stepOk w t2.app.project_name i = false →
      (sysTick w k t2).1.mode = RunMode.errorHalt) ∧
    (sysTick w k t).1.mode =
      (if isEscEvent k then RunMode.exited 1 else RunMode.errorHalt) ∧
    (sysTick w k t).2.1 = [] ∧ ((sysTick w k t).2.2).ranStep = none := by
  have hstep : ∃ a1 : App, sysTick w k t2 = stateWork w { t2 with app := a1 } ∧
      a1.state = t2.app.state ∧ a1.project_name = t2.app.project_name := by
    rcases k with _ | ke
    · refine ⟨t2.app, ?_, rfl, rfl⟩
      rw [sysTick_running_none w t2 ht2m]
    · have hb := keyStateBranch_installing w ke t2.app i ht2s
      have hf := hke_inert_fields w ke t2.app hb
      have hpair : handle_key_event w ke t2.app =
          (false, (handle_key_event w ke t2.app).2) := by
        rcases hh : handle_key_event w ke t2.app with ⟨q, a1⟩
        rw [hh] at hf
        simp only at hf
        rw [hf.1]
      exact ⟨(handle_key_event w ke t2.app).2,
        sysTick_running_some w t2 ke _ ht2m hpair, hf.2.1.trans rfl, hf.2.2.1⟩
  rcases hstep with ⟨a1, htick, ha1st, ha1pn⟩
  have hst1 : ({ t2 with app := a1 } : Sys).app.state = AppState.Installing i := by
    simpa [ha1st] using ht2s
  have hsw := sw_installing w { t2 with app := a1 } i hst1
  refine ⟨?_, ?_, ?_, ?_, ?_, ?_, ?_, ?_⟩
  · have hr := installRun w keys s InstallStep.CloningRepo hm hs
    rw [hn] at hr
    rw [hr, idealFromStep_eq_take, List.take_take]
  · exact gating_all_take w name
  · rw [htick, hsw.1]
  · intro hok
    have h2 := hsw.2.2.2.1 (by simpa [ha1pn] using hok)
    rw [htick]
    exact ⟨h2.1.trans ht2m, h2.2⟩
  · intro hfail
    have h2 := hsw.2.2.2.2 (by simpa [ha1pn] using hfail)
    rw [htick]
    exact h2
  · rcases t with ⟨ta, te, tm⟩
    simp only at htm
    subst htm
    by_cases he : isEscEvent k = true <;> simp [sysTick, he]
  · rcases t with ⟨ta, te, tm⟩
    simp only at htm
    subst htm
    by_cases he : isEscEvent k = true <;> simp [sysTick, he]
  · rcases t with ⟨ta, te, tm⟩
    simp only at htm
    subst htm
    by_cases he : isEscEvent k = true <;> simp [sysTick, he, noObs]

/-- Concrete instantiation of `c1_install_pipeline`: under the
all-succeeding oracle a six-tick run from the start of installation
executes all five steps in order, one tick at step 0 advances to step 1,
and Esc in the error display exits with code 1. -/
theorem c1_install_pipeline_witness :
    execSteps (runSys wAll installStart keys6).2.2 =
      installOrder.take (min keys6.length (execCount wAll "demo")) ∧
    ((sysTick wAll (some (press KeyCode.Esc)) installStart).2.2).ranStep =
      some InstallStep.CloningRepo ∧
    (sysTick wAll (some (press KeyCode.Esc)) installStart).1.app.state =
      nextAfter InstallStep.CloningRepo ∧
    (sysTick wAll (some (press KeyCode.Esc)) errHaltSys).1.mode = RunMode.exited 1 := by
  have h := c1_install_pipeline wAll "demo" keys6 installStart errHaltSys installStart
    InstallStep.CloningRepo (some (press KeyCode.Esc)) rfl rfl rfl rfl rfl rfl
  exact ⟨h.1, h.2.2.1, (h.2.2.2.1 (by rfl)).2, (h.2.2.2.2.2.1).trans (by rfl)⟩

/-! ## Test-run tick lemmas -/

theorem cleanup_test_command_output (a : App) :
    (cleanup_test a).1.command_output = a.command_output := by
  unfold cleanup_test
  rcases hte : a.test_env with _ | te <;> simp [hte]
  rcases hp : te.anvil_process with _ | h <;> simp [hp]

theorem cleanup_test_project_name (a : App) :
    (cleanup_test a).1.project_name = a.project_name := by
  unfold cleanup_test
  rcases hte : a.test_env with _ | te <;> simp [hte]
  rcases hp : te.anvil_process with _ | h <;> simp [hp]

theorem tick_testing_form (w : World) (k : Option KeyEvent) (s : Sys)
    (p : E2ETestStep) (hm : s.mode = RunMode.running)
    (hst : s.app.state = AppState.Testing p) :
    ∃ a1 : App, sysTick w k s = stateWork w { s with app := a1 } ∧
      a1.state = s.app.state ∧ a1.test_env = s.app.test_env ∧
      a1.project_name = s.app.project_name ∧
      a1.command_output = s.app.command_output := by
  rcases k with _ | ke
  · refine ⟨s.app, ?_, rfl, rfl, rfl, rfl⟩
    rw [sysTick_running_none w s hm]
  · have hb := keyStateBranch_testing w ke s.app p hst
    have hf := hke_inert_fields w ke s.app hb
    have hpair : handle_key_event w ke s.app =
        (false, (handle_key_event w ke s.app).2) := by
      rcases hh : handle_key_event w ke s.app with ⟨q, a1⟩
      rw [hh] at hf
      simp only at hf
      rw [hf.1]
    exact ⟨(handle_key_event w ke s.app).2,
      sysTick_running_some w s ke _ hm hpair,
      hf.2.1, hf.2.2.2.1, hf.2.2.1, hf.2.2.2.2⟩

theorem sw_prep (w : World) (s : Sys) (te : TestEnvironment)
    (hm : s.mode = RunMode.running)
    (hst : s.app.state = AppState.Testing E2ETestStep.PreparingEnvironment)
    (hte : s.app.test_env = some te) :
    (stateWork w s).1.mode = RunMode.running ∧
    (stateWork w s).1.app.state = AppState.Testing E2ETestStep.StartingAnvil ∧
    (stateWork w s).1.app.test_env = some te ∧
    (stateWork w s).1.app.project_name = s.app.project_name ∧
    (stateWork w s).1.app.command_output = s.app.command_output ∧
    (stateWork w s).2.2 =
      { ranStep := none, ranPhase := some E2ETestStep.PreparingEnvironment,
        cleaned := false } := by
  unfold stateWork handle_test_step
  simp [hst, hte, hm]

theorem sw_cleanup (w : World) (s : Sys) (te : TestEnvironment)
    (hm : s.mode = RunMode.running)
    (hst : s.app.state = AppState.Testing E2ETestStep.Cleanup)
    (hte : s.app.test_env = some te) :
    (stateWork w s).1.mode = RunMode.running ∧
    (stateWork w s).1.app.state = AppState.TestMenu ∧
    (stateWork w s).1.app.project_name = s.app.project_name ∧
    (stateWork w s).2.2 =
      { ranStep := none, ranPhase := some E2ETestStep.Cleanup, cleaned := true } := by
  unfold stateWork handle_test_step
  simp [hst, hte, hm, cleanup_test_project_name]

theorem sw_start (w : World) (s : Sys) (te : TestEnvironment)
    (hm : s.mode = RunMode.running)
    (hst : s.app.state = AppState.Testing E2ETestStep.StartingAnvil)
    (hte : s.app.test_env = some te) :
    (startAnvilOk w = true →
      (stateWork w s).1.mode = RunMode.running ∧
      (stateWork w s).1.app.state = AppState.Testing E2ETestStep.RunningTest ∧
      (stateWork w s).1.app.test_env =
        some { te with anvil_process := some w.anvilHandle } ∧
      (stateWork w s).1.app.project_name = s.app.project_name ∧
      (stateWork w s).1.app.command_output = s.app.command_output) ∧
    (startAnvilOk w = false →
      (stateWork w s).1.mode = RunMode.running ∧
      (stateWork w s).1.app.state = AppState.TestMenu ∧
      (stateWork w s).1.app.project_name = s.app.project_name ∧
      (stateWork w s).1.app.command_output =
        s.app.command_output ++ ["Error: " ++ testErrMsg w s.app.project_name]) ∧
    (stateWork w s).2.2 =
      { ranStep := none, ranPhase := some E2ETestStep.StartingAnvil,
        cleaned := !startAnvilOk w } := by
  unfold stateWork handle_test_step
  by_cases h1 : w.anvilSpawnOk <;> by_cases h2 : w.curlOk <;>
    simp [hst, hte, hm, h1, h2, startAnvilOk, testErrMsg, anvilNotReadyMsg,
          add_output, cleanup_test_command_output, cleanup_test_project_name]

theorem sw_run (w : World) (s : Sys) (te : TestEnvironment)
    (hm : s.mode = RunMode.running)
    (hst : s.app.state = AppState.Testing E2ETestStep.RunningTest)
    (hte : s.app.test_env = some te) :
    (runTestOk w s.app.project_name = true →
      (stateWork w s).1.mode = RunMode.running ∧
      (stateWork w s).1.app.state = AppState.Testing E2ETestStep.Cleanup ∧
      (stateWork w s).1.app.test_env = some te ∧
      (stateWork w s).1.app.project_name = s.app.project_name) ∧
    (runTestOk w s.app.project_name = false →
      (stateWork w s).1.mode = RunMode.running ∧
      (stateWork w s).1.app.state = AppState.TestMenu ∧
      (stateWork w s).1.app.project_name = s.app.project_name ∧
      ("Error: " ++ runErrMsg w s.app.project_name) ∈
        (stateWork w s).1.app.command_output) ∧
    (stateWork w s).2.2 =
      { ranStep := none, ranPhase := some E2ETestStep.RunningTest,
        cleaned := !runTestOk w s.app.project_name } := by
  have hall : (seqErr w testPrepCmds).isNone =
      (run_ok w "cargo" ["build"] &&
        (run_ok w "forge" ["build"] && run_ok w "chmod" ["+x", "e2e-test.sh"])) := by
    rw [seqErr_isNone]
    simp [testPrepCmds]
  unfold stateWork handle_test_step runTestPhase
  simp only [hst, hte]
  by_cases hc1 : w.chdirOk workspaceRoot
  case neg =>
    have hrt : runTestOk w s.app.project_name = false := by
      unfold runTestOk
      simp [hc1]
    simp [hc1, hrt, runErrMsg, cleanup_test_command_output,
          cleanup_test_project_name, add_output, hm]
  by_cases hc2 : w.chdirOk s.app.project_name
  case neg =>
    have hrt : runTestOk w s.app.project_name = false := by
      unfold runTestOk
      simp [hc1, hc2]
    simp [hc1, hc2, hrt, runErrMsg, cleanup_test_command_output,
          cleanup_test_project_name, add_output, hm]
  rw [cmdSeq_err]
  rcases hsq : seqErr w testPrepCmds with _ | es <;> rw [hsq] at hall
  case pos.some =>
    simp only [Option.isNone_some] at hall
    have hrt : runTestOk w s.app.project_name = false := by
      unfold runTestOk
      rcases hc : run_ok w "cargo" ["build"] <;>
        rcases hd : run_ok w "forge" ["build"] <;>
          rcases he2 : run_ok w "chmod" ["+x", "e2e-test.sh"] <;> simp_all
    have hmsg : runErrMsg w s.app.project_name = es := by
      unfold runErrMsg
      simp [hc1, hc2, hsq]
    simp [hc1, hc2, hsq, hrt, hmsg, cleanup_test_command_output,
          cleanup_test_project_name, cmdSeq_project_name, add_output, hm]
  simp only [Option.isNone_none] at hall
  have h3 : run_ok w "cargo" ["build"] = true ∧
      run_ok w "forge" ["build"] = true ∧
      run_ok w "chmod" ["+x", "e2e-test.sh"] = true := by
    simpa using hall.symm
  by_cases hb1 : w.spawnOkCmd "bash" ["e2e-test.sh"]
  case neg =>
    have hrt : runTestOk w s.app.project_name = false := by
      unfold runTestOk run_ok
      simp [hb1]
    have hmsg : runErrMsg w s.app.project_name = "spawn failed" := by
      unfold runErrMsg
      simp [hc1, hc2, hsq, hb1]
    simp [hc1, hc2, hsq, run_command_err, hb1, hrt, hmsg,
          cleanup_test_command_output, cleanup_test_project_name,
          cmdSeq_project_name, add_output, hm]
  by_cases hb2 : w.cmdOk "bash" ["e2e-test.sh"]
  case neg =>
    have hrt : runTestOk w s.app.project_name = false := by
      unfold runTestOk run_ok
      simp [hb1, hb2]
    have hmsg : runErrMsg w s.app.project_name = "Command failed" := by
      unfold runErrMsg
      simp [hc1, hc2, hsq, hb1, hb2]
    simp [hc1, hc2, hsq, run_command_err, hb1, hb2, hrt, hmsg,
          cleanup_test_command_output, cleanup_test_project_name,
          cmdSeq_project_name, add_output, hm]
  have hrt : runTestOk w s.app.project_name = true := by
    unfold runTestOk run_ok
    simp only [run_ok] at h3
    simp [hc1, hc2, hb1, hb2, h3.1, h3.2.1, h3.2.2]
  simp [hc1, hc2, hsq, run_command_err, hb1, hb2, hrt,
        cleanup_test_command_output, cleanup_test_project_name,
        cmdSeq_project_name, cmdSeq_test_env, add_output, hm]

/-! ## Test-run composition lemmas -/

theorem runSys_nil (w : World) (s : Sys) : runSys w s [] = (s, [], []) := rfl

theorem seqErr_testPrep (w : World) :
    seqErr w testPrepCmds =
      (if !w.spawnOkCmd "cargo" ["build"] then some "spawn failed"
       else if !w.cmdOk "cargo" ["build"] then some "Command failed"
       else if !w.spawnOkCmd "forge" ["build"] then some "spawn failed"
       else if !w.cmdOk "forge" ["build"] then some "Command failed"
       else if !w.spawnOkCmd "chmod" ["+x", "e2e-test.sh"] then some "spawn failed"
       else if !w.cmdOk "chmod" ["+x", "e2e-test.sh"] then some "Command failed"
       else none) := by
  simp only [testPrepCmds, seqErr]
  by_cases a1 : w.spawnOkCmd "cargo" ["build"] <;>
    by_cases a2 : w.cmdOk "cargo" ["build"] <;>
      by_cases a3 : w.spawnOkCmd "forge" ["build"] <;>
        by_cases a4 : w.cmdOk "forge" ["build"] <;>
          by_cases a5 : w.spawnOkCmd "chmod" ["+x", "e2e-test.sh"] <;>
            by_cases a6 : w.cmdOk "chmod" ["+x", "e2e-test.sh"] <;>
              simp [a1, a2, a3, a4, a5, a6]

theorem testErrMsg_of_anvil (w : World) (name : String)
    (hA : startAnvilOk w = true) :
    testErrMsg w name = runErrMsg w name := by
  simp only [startAnvilOk, Bool.and_eq_true] at hA
  unfold testErrMsg runErrMsg
  rw [seqErr_testPrep]
  simp only [hA.1, hA.2, Bool.not_true]
  by_cases c1 : w.chdirOk workspaceRoot
  case neg => simp [c1]
  by_cases c2 : w.chdirOk name
  case neg => simp [c1, c2]
  by_cases a1 : w.spawnOkCmd "cargo" ["build"]
  case neg => simp [c1, c2, a1]
  by_cases a2 : w.cmdOk "cargo" ["build"]
  case neg => simp [c1, c2, a1, a2]
  by_cases a3 : w.spawnOkCmd "forge" ["build"]
  case neg => simp [c1, c2, a1, a2, a3]
  by_cases a4 : w.cmdOk "forge" ["build"]
  case neg => simp [c1, c2, a1, a2, a3, a4]
  by_cases a5 : w.spawnOkCmd "chmod" ["+x", "e2e-test.sh"]
  case neg => simp [c1, c2, a1, a2, a3, a4, a5]
  by_cases a6 : w.cmdOk "chmod" ["+x", "e2e-test.sh"]
  case neg => simp [c1, c2, a1, a2, a3, a4, a5, a6]
  simp [c1, c2, a1, a2, a3, a4, a5, a6]

theorem tick_prep (w : World) (k : Option KeyEvent) (s : Sys) (te : TestEnvironment)
    (hm : s.mode = RunMode.running)
    (hst : s.app.state = AppState.Testing E2ETestStep.PreparingEnvironment)
    (hte : s.app.test_env = some te) :
    (sysTick w k s).1.mode = RunMode.running ∧
    (sysTick w k s).1.app.state = AppState.Testing E2ETestStep.StartingAnvil ∧
    (sysTick w k s).1.app.test_env = some te ∧
    (sysTick w k s).1.app.project_name = s.app.project_name ∧
    (sysTick w k s).1.app.command_output = s.app.command_output ∧
    (sysTick w k s).2.2 =
      { ranStep := none, ranPhase := some E2ETestStep.PreparingEnvironment,
        cleaned := false } := by
  obtain ⟨a1, he, hsa, hva, hpa, hoa⟩ :=
    tick_testing_form w k s E2ETestStep.PreparingEnvironment hm hst
  rw [he]
  have h := sw_prep w { s with app := a1 } te hm (hsa.trans hst) (hva.trans hte)
  exact ⟨h.1, h.2.1, h.2.2.1, h.2.2.2.1.trans hpa, h.2.2.2.2.1.trans hoa,
    h.2.2.2.2.2⟩

theorem tick_start (w : World) (k : Option KeyEvent) (s : Sys) (te : TestEnvironment)
    (hm : s.mode = RunMode.running)
    (hst : s.app.state = AppState.Testing E2ETestStep.StartingAnvil)
    (hte : s.app.test_env = some te) :
    (startAnvilOk w = true →
      (sysTick w k s).1.mode = RunMode.running ∧
      (sysTick w k s).1.app.state = AppState.Testing E2ETestStep.RunningTest ∧
      (sysTick w k s).1.app.test_env =
        some { te with anvil_process := some w.anvilHandle } ∧
      (sysTick w k s).1.app.project_name = s.app.project_name ∧
      (sysTick w k s).1.app.command_output = s.app.command_output) ∧
    (startAnvilOk w = false →
      (sysTick w k s).1.mode = RunMode.running ∧
      (sysTick w k s).1.app.state = AppState.TestMenu ∧
      (sysTick w k s).1.app.project_name = s.app.project_name ∧
      (sysTick w k s).1.app.command_output =
        s.app.command_output ++ ["Error: " ++ testErrMsg w s.app.project_name]) ∧
    (sysTick w k s).2.2 =
      { ranStep := none, ranPhase := some E2ETestStep.StartingAnvil,
        cleaned := !startAnvilOk w } := by
  obtain ⟨a1, he, hsa, hva, hpa, hoa⟩ :=
    tick_testing_form w k s E2ETestStep.StartingAnvil hm hst
  rw [he]
  have h := sw_start w { s with app := a1 } te hm (hsa.trans hst) (hva.trans hte)
  refine ⟨fun hA => ?_, fun hA => ?_, h.2.2⟩
  · obtain ⟨m1, m2, m3, m4, m5⟩ := h.1 hA
    exact ⟨m1, m2, m3, m4.trans hpa, m5.trans hoa⟩
  · obtain ⟨m1, m2, m3, m4⟩ := h.2.1 hA
    refine ⟨m1, m2, m3.trans hpa, ?_⟩
    have hpa2 : ({ s with app := a1 } : Sys).app.project_name =
        s.app.project_name := hpa
    have hoa2 : ({ s with app := a1 } : Sys).app.command_output =
        s.app.command_output := hoa
    rw [m4, hpa2, hoa2]

theorem tick_run (w : World) (k : Option KeyEvent) (s : Sys) (te : TestEnvironment)
    (hm : s.mode = RunMode.running)
    (hst : s.app.state = AppState.Testing E2ETestStep.RunningTest)
    (hte : s.app.test_env = some te) :
    (runTestOk w s.app.project_name = true →
      (sysTick w k s).1.mode = RunMode.running ∧
      (sysTick w k s).1.app.state = AppState.Testing E2ETestStep.Cleanup ∧
      (sysTick w k s).1.app.test_env = some te ∧
      (sysTick w k s).1.app.project_name = s.app.project_name) ∧
    (runTestOk w s.app.project_name = false →
      (sysTick w k s).1.mode = RunMode.running ∧
      (sysTick w k s).1.app.state = AppState.TestMenu ∧
      (sysTick w k s).1.app.project_name = s.app.project_name ∧
      ("Error: " ++ runErrMsg w s.app.project_name) ∈
        (sysTick w k s).1.app.command_output) ∧
    (sysTick w k s).2.2 =
      { ranStep := none, ranPhase := some E2ETestStep.RunningTest,
        cleaned := !runTestOk w s.app.project_name } := by
  obtain ⟨a1, he, hsa, hva, hpa, hoa⟩ :=
    tick_testing_form w k s E2ETestStep.RunningTest hm hst
  rw [he]
  have h := sw_run w { s with app := a1 } te hm (hsa.trans hst) (hva.trans hte)
  have hpa2 : ({ s with app := a1 } : Sys).app.project_name =
      s.app.project_name := hpa
  rw [hpa2] at h
  exact h

theorem tick_cleanup (w : World) (k : Option KeyEvent) (s : Sys) (te : TestEnvironment)
    (hm : s.mode = RunMode.running)
    (hst : s.app.state = AppState.Testing E2ETestStep.Cleanup)
    (hte : s.app.test_env = some te) :
    (sysTick w k s).1.mode = RunMode.running ∧
    (sysTick w k s).1.app.state = AppState.TestMenu ∧
    (sysTick w k s).1.app.project_name = s.app.project_name ∧
    (sysTick w k s).2.2 =
      { ranStep := none, ranPhase := some E2ETestStep.Cleanup, cleaned := true } := by
  obtain ⟨a1, he, hsa, hva, hpa, hoa⟩ :=
    tick_testing_form w k s E2ETestStep.Cleanup hm hst
  rw [he]
  have h := sw_cleanup w { s with app := a1 } te hm (hsa.trans hst) (hva.trans hte)
  exact ⟨h.1, h.2.1, h.2.2.1.trans hpa, h.2.2.2⟩

/-- C2: a test-run invocation started from the environment-preparation
phase runs for at most four ticks and then sits back in the test menu with
the loop still running (never crashing): exactly the declared phases up to
and including the first failing one execute, so a phase error aborts every
remaining phase; cleanup runs exactly once per invocation regardless of
which phase failed (or none); and when some phase fails, the first error
message is appended to the output log. -/
theorem c2_test_run_cleanup (w : World) (s : Sys) (te : TestEnvironment)
    (keys : List (Option KeyEvent))
    (hm : s.mode = RunMode.running)
    (hst : s.app.state = AppState.Testing E2ETestStep.PreparingEnvironment)
    (hte : s.app.test_env = some te)
    (hk : keys.length = testTicks w s.app.project_name) :
    testTicks w s.app.project_name ≤ 4 ∧
    (runSys w s keys).1.mode = RunMode.running ∧
    (runSys w s keys).1.app.state = AppState.TestMenu ∧
    execPhases (runSys w s keys).2.2 = idealPhases w s.app.project_name ∧
    cleanCount (runSys w s keys).2.2 = 1 ∧
    (testFails w s.app.project_name = true →
      ("Error: " ++ testErrMsg w s.app.project_name) ∈
        (runSys w s keys).1.app.command_output) := by
  by_cases hA : startAnvilOk w
  · by_cases hR : runTestOk w s.app.project_name
    · have hn : testTicks w s.app.project_name = 4 := by
        simp [testTicks, hA, hR]
      rw [hn] at hk
      rcases keys with _ | ⟨k1, _ | ⟨k2, _ | ⟨k3, _ | ⟨k4, _ | ⟨k5, t⟩⟩⟩⟩⟩ <;>
        simp at hk
      obtain ⟨m1, s1st, s1te, s1pn, s1co, o1⟩ := tick_prep w k1 s te hm hst hte
      obtain ⟨hS2, _, o2⟩ := tick_start w k2 (sysTick w k1 s).1 te m1 s1st s1te
      obtain ⟨m2, s2st, s2te, s2pn, s2co⟩ := hS2 hA
      have hpn2 : (sysTick w k2 (sysTick w k1 s).1).1.app.project_name =
          s.app.project_name := s2pn.trans s1pn
      have hR2 : runTestOk w
          (sysTick w k2 (sysTick w k1 s).1).1.app.project_name = true := by
        rw [hpn2]; exact hR
      obtain ⟨hS3, _, o3⟩ :=
        tick_run w k3 (sysTick w k2 (sysTick w k1 s).1).1
          { te with anvil_process := some w.anvilHandle } m2 s2st s2te
      obtain ⟨m3, s3st, s3te, s3pn⟩ := hS3 hR2
      obtain ⟨m4, s4st, s4pn, o4⟩ :=
        tick_cleanup w k4
          (sysTick w k3 (sysTick w k2 (sysTick w k1 s).1).1).1
          { te with anvil_process := some w.anvilHandle } m3 s3st s3te
      simp only [runSys_cons, runSys_nil]
      refine ⟨by simp [hn], m4, s4st, ?_, ?_, ?_⟩
      · rw [o1, o2, o3, o4]
        simp [execPhases, idealPhases, hA, hR, hR2]
      · rw [o1, o2, o3, o4]
        simp [cleanCount, hA, hR2]
      · intro hF
        simp [testFails, hA, hR] at hF
    · have hRf : runTestOk w s.app.project_name = false := by simpa using hR
      have hn : testTicks w s.app.project_name = 3 := by
        simp [testTicks, hA, hRf]
      rw [hn] at hk
      rcases keys with _ | ⟨k1, _ | ⟨k2, _ | ⟨k3, _ | ⟨k4, t⟩⟩⟩⟩ <;> simp at hk
      obtain ⟨m1, s1st, s1te, s1pn, s1co, o1⟩ := tick_prep w k1 s te hm hst hte
      obtain ⟨hS2, _, o2⟩ := tick_start w k2 (sysTick w k1 s).1 te m1 s1st s1te
      obtain ⟨m2, s2st, s2te, s2pn, s2co⟩ := hS2 hA
      have hpn2 : (sysTick w k2 (sysTick w k1 s).1).1.app.project_name =
          s.app.project_name := s2pn.trans s1pn
      have hR2 : runTestOk w
          (sysTick w k2 (sysTick w k1 s).1).1.app.project_name = false := by
        rw [hpn2]; exact hRf
      obtain ⟨_, hS3, o3⟩ :=
        tick_run w k3 (sysTick w k2 (sysTick w k1 s).1).1
          { te with anvil_process := some w.anvilHandle } m2 s2st s2te
      obtain ⟨m3, s3st, s3pn, s3mem⟩ := hS3 hR2
      simp only [runSys_cons, runSys_nil]
      refine ⟨by simp [hn], m3, s3st, ?_, ?_, ?_⟩
      · rw [o1, o2, o3]
        simp [execPhases, idealPhases, hA, hRf, hR2]
      · rw [o1, o2, o3]
        simp [cleanCount, hA, hR2]
      · intro hF
        rw [testErrMsg_of_anvil w s.app.project_name hA, ← hpn2]
        exact s3mem
  · have hAf : startAnvilOk w = false := by simpa using hA
    have hn : testTicks w s.app.project_name = 2 := by
      simp [testTicks, hAf]
    rw [hn] at hk
    rcases keys with _ | ⟨k1, _ | ⟨k2, _ | ⟨k3, t⟩⟩⟩ <;> simp at hk
    obtain ⟨m1, s1st, s1te, s1pn, s1co, o1⟩ := tick_prep w k1 s te hm hst hte
    obtain ⟨_, hS2, o2⟩ := tick_start w k2 (sysTick w k1 s).1 te m1 s1st s1te
    obtain ⟨m2, s2st, s2pn, s2co⟩ := hS2 hAf
    simp only [runSys_cons, runSys_nil]
    refine ⟨by simp [hn], m2, s2st, ?_, ?_, ?_⟩
    · rw [o1, o2]
      simp [execPhases, idealPhases, hAf]
    · rw [o1, o2]
      simp [cleanCount, hAf]
    · intro hF
      rw [s2co, s1co, s1pn]
      simp

/-- Concrete instantiation of `c2_test_run_cleanup`: under the
all-succeeding oracle a four-tick run from the start of a test-run
invocation ends back in the test menu, executes all four phases in order
and cleans up exactly once. -/
theorem c2_test_run_cleanup_witness :
    sysTestStart.mode = RunMode.running ∧
    ([none, none, none, none] : List (Option KeyEvent)).length =
      testTicks wAll sysTestStart.app.project_name ∧
    (runSys wAll sysTestStart [none, none, none, none]).1.app.state =
      AppState.TestMenu ∧
    execPhases (runSys wAll sysTestStart [none, none, none, none]).2.2 =
      idealPhases wAll sysTestStart.app.project_name ∧
    cleanCount (runSys wAll sysTestStart [none, none, none, none]).2.2 = 1 := by
  have h := c2_test_run_cleanup wAll sysTestStart teK [none, none, none, none]
    rfl rfl rfl rfl
  exact ⟨rfl, rfl, h.2.2.1, h.2.2.2.1, h.2.2.2.2.1⟩
